import Mathlib

/-!
Verification of the AirTracker aircraft fusion and publication pipeline.

This file gives a shallow embedding of the merge / enrichment / selection
logic of the repository (src/plane_merge.py, src/plane_retreiver.py,
src/mqtt/unified/airtracker_complete.py) and proves or refutes the
specification claims about it.

Numbers are modelled as rationals; Python dictionaries keyed by strings are
modelled as association lists or as typed structures whose fields are the
keys the code reads or writes; Python `None` is `Option.none`.  Transcendental
helpers (the cosine in the bounding-box computation, the haversine distance)
are passed in as parameters, since the claims about them concern only the
surrounding arithmetic and selection logic.
-/

/-! ## Python-flavoured string and option helpers -/

/-- Python `a or b` on optional numbers: `a` when it is truthy (present and
nonzero), else `b`.  Used by `provider_age` for `last_contact or time_position`. -/
def pyOrQ (a b : Option ℚ) : Option ℚ :=
  match a with
  | some x => if x = 0 then b else some x
  | none => b

/-- Python `a or b` on optional strings: `a` when present and nonempty, else `b`. -/
def pyOrStr (a b : Option String) : Option String :=
  match a with
  | some s => if s = "" then b else some s
  | none => b

/-- Python truthiness of an optional string: present and nonempty. -/
def pyTruthyS (o : Option String) : Bool :=
  match o with
  | some s => s ≠ ""
  | none => false

/-- Drop leading whitespace from a character list. -/
def pyStripL (l : List Char) : List Char := l.dropWhile Char.isWhitespace

/-- Python `str.strip()`: drop whitespace from both ends. -/
def pyStrip (s : String) : String :=
  ⟨(pyStripL (pyStripL s.data).reverse).reverse⟩

/-- `_clean_str` from plane_merge.py / airtracker_complete.py: strip, and map
the empty result (and `None`) to `None`. -/
def _clean_str (s : Option String) : Option String :=
  match s with
  | none => none
  | some s => let t := pyStrip s; if t = "" then none else some t

/-- Python `str.upper()` (ASCII behaviour suffices for ICAO codes). -/
def pyUpper (s : String) : String := ⟨s.data.map Char.toUpper⟩

/-- Prefix test on character lists (`l` starts with `p`). -/
def startsWithL : List Char → List Char → Bool
  | _, [] => true
  | [], _ :: _ => false
  | c :: cs, p :: ps => c == p && startsWithL cs ps

/-- Python `s.startswith(p)`. -/
def pyStartsWith (s p : String) : Bool := startsWithL s.data p.data

/-! ## Seat-count heuristic (`_estimate_seat_max`, identical in
plane_merge.py and airtracker_complete.py) -/

/-- The body of `_estimate_seat_max` after `t = icao.upper()`: the fixed
type-prefix heuristic table. -/
def seat_heuristic_table (t : String) : Option ℤ :=
  if pyStartsWith t "A31" || pyStartsWith t "A32" then some 244
      else if pyStartsWith t "B70" then some 189
      else if pyStartsWith t "B72" then some 189
      else if pyStartsWith t "B73" then some 230
      else if pyStartsWith t "B78" then some 330
      else if pyStartsWith t "E17" || pyStartsWith t "E19" ||
              pyStartsWith t "E29" || pyStartsWith t "E75" then some 146
      else if pyStartsWith t "CRJ" then some 104
      else if pyStartsWith t "AT4" || pyStartsWith t "AT7" then some 78
      else if pyStartsWith t "DH8" then some 90
      else if pyStartsWith t "DH2" then some 7
      else if pyStartsWith t "TISB" then some 6
      else if pyStartsWith t "BE33" || pyStartsWith t "BE35" ||
              pyStartsWith t "BE36" then some 4
      else if pyStartsWith t "BE55" || pyStartsWith t "BE56" ||
              pyStartsWith t "BE58" then some 6
      else if pyStartsWith t "BE76" || pyStartsWith t "BE77" ||
              pyStartsWith t "BE80" || pyStartsWith t "BE95" then some 4
      else if pyStartsWith t "BE9" || pyStartsWith t "BE10" then some 9
      else if t = "B350" then some 11
      else if pyStartsWith t "LJ" then some 9
      else if t = "PRM1" then some 6
      else if t = "GALX" then some 10
      else if t = "MU30" then some 8
      else if t = "H25A" || t = "H25B" || t = "H25C" then some 8
      else if t = "FA10" then some 8
      else if t = "FA20" then some 12
      else if t = "FA8X" then some 19
      else if t = "C120" || t = "C140" then some 2
      else if pyStartsWith t "C17" || pyStartsWith t "C15" ||
              pyStartsWith t "C19" then some 4
      else if t = "C180" then some 4
      else if t = "C185" then some 6
      else if t = "C188" then some 1
      else if t = "C195" then some 5
      else if t = "C210" then some 6
      else if t = "C310" then some 6
      else none

/-- `_estimate_seat_max(icao)`: `if not icao` catches both `None` and the
empty string; otherwise apply the heuristic table to the uppercased code. -/
def _estimate_seat_max (icao : Option String) : Option ℤ :=
  match icao with
  | none => none
  | some i =>
    if i = "" then none else seat_heuristic_table (pyUpper i)

/-- `_private_threshold_default()`: parse `PRIVATE_DESIGNATION_SEATS` from the
environment (modelled as the optional raw string), defaulting to 8 when unset
or unparseable. -/
def _private_threshold_default (env : Option String) : ℤ :=
  match env with
  | none => 8
  | some s => ((pyStrip s).toInt?).getD 8

/-! ## Catalog and record data model -/

/-- One row of `aircraft_types_full.jsonl` (the fields the code reads). -/
structure AircraftEntry where
  name : Option String
  manufacturer : Option String
  model : Option String
  seats : Option ℤ
  iata : List String
deriving DecidableEq

/-- One row of `airlines.jsonl` (also the exact shape of `lookups.airline`). -/
structure AirlineEntry where
  icao : Option String
  iata : Option String
  name : Option String
  callsign : Option String
  country_code : Option String
  country_name : Option String
deriving DecidableEq

/-- One row of `airports.jsonl` (also the shape produced by `airport_info`). -/
structure AirportEntry where
  iata : Option String
  name : Option String
  city : Option String
  region : Option String
  country_code : Option String
  country_name : Option String
  lat : Option ℚ
  lon : Option ℚ
  elevation_ft : Option ℚ
deriving DecidableEq

/-- One row of `countries.jsonl`. -/
structure CountryEntry where
  name : Option String
deriving DecidableEq

/-- The loaded catalogs (`_load_catalogs`): read-only lookup maps. -/
structure Catalogs where
  aircraft : String → Option AircraftEntry
  airlines_by_icao : String → Option AirlineEntry
  airlines_by_iata : String → Option AirlineEntry
  airports : String → Option AirportEntry
  countries : String → Option CountryEntry

/-- The `lookups.aircraft` object built by `enrich_with_catalogs`. -/
structure AircraftLookup where
  icao : String
  name : String
  manufacturer : Option String
  model : Option String
  seats_max : Option ℤ
  iata_aliases : List String
  lookup_status : String
deriving DecidableEq

/-- The `lookups` sub-record of an enriched aircraft. -/
structure Lookups where
  aircraft : Option AircraftLookup
  airline : Option AirlineEntry
  origin_airport : Option AirportEntry
  destination_airport : Option AirportEntry
deriving DecidableEq

/-- Python truthiness of the `lookups` dict: it is falsy when no key was set. -/
def Lookups.isEmptyL (l : Lookups) : Bool :=
  l.aircraft.isNone && l.airline.isNone && l.origin_airport.isNone &&
    l.destination_airport.isNone

/-- A merged aircraft record: the fields of the Python dict that the
enrichment and classification code reads or writes.  `rest` stands for all
remaining keys, which that code never touches. -/
structure MRow where
  hex : String
  is_military : Option Bool
  aircraft_type : Option String
  airline_icao : Option String
  flight_no : Option String
  origin_iata : Option String
  destination_iata : Option String
  souls_on_board_max : Option ℤ
  souls_on_board_max_is_estimate : Option Bool
  souls_on_board_max_text : Option String
  lookups : Option Lookups
  rest : List (String × String)
deriving DecidableEq

/-! ## Classification (`classify_aircraft`, airtracker_complete.py 426-445) -/

/-- `classify_aircraft(row, private_threshold)`.  `env` is the raw
`PRIVATE_DESIGNATION_SEATS` environment value consulted when no explicit
threshold is passed. -/
def classify_aircraft (row : MRow) (private_threshold : Option ℤ)
    (env : Option String) : Option String :=
  if row.is_military = some true then some "Military"
  else
    let seats : Option ℤ :=
      match row.souls_on_board_max with
      | some s => some s
      | none => _estimate_seat_max (_clean_str row.aircraft_type)
    match seats with
    | none => none
    | some s =>
      let thr := private_threshold.getD (_private_threshold_default env)
      some (if s ≤ thr then "Private" else "Commercial")

/-- The seat count `classify_aircraft` works from: the explicit
`souls_on_board_max` when it is an integer, else the type heuristic. -/
def classify_seats (row : MRow) : Option ℤ :=
  match row.souls_on_board_max with
  | some s => some s
  | none => _estimate_seat_max (_clean_str row.aircraft_type)

/-! ## Flight-number recognition (`looks_like_iata_flight`,
`_airline_from_flight_no`, plane_merge.py 37-41 and 164-173) -/

/-- Characters admitted by `[A-Z0-9]`. -/
def isAZ09 (c : Char) : Bool := ('A' ≤ c && c ≤ 'Z') || ('0' ≤ c && c ≤ '9')

/-- Characters admitted by `\d`. -/
def isDigitCh (c : Char) : Bool := '0' ≤ c && c ≤ '9'

/-- Characters admitted by `[A-Z]`. -/
def isAZ (c : Char) : Bool := 'A' ≤ c && c ≤ 'Z'

/-- `[A-Z]?$`: the remaining characters are empty or one capital letter. -/
def optLetterEnd : List Char → Bool
  | [] => true
  | [c] => isAZ c
  | _ :: _ :: _ => false

/-- `\d{1,4}[A-Z]?$` on the remaining characters (with backtracking). -/
def digitsThenEnd (cs : List Char) : Bool :=
  [1, 2, 3, 4].any fun k =>
    decide (k ≤ cs.length) && (cs.take k).all isDigitCh && optLetterEnd (cs.drop k)

/-- Full match of `IATA_FLIGHT_RE = ^[A-Z0-9]{2,3}\d{1,4}[A-Z]?$`. -/
def iataFlightMatch (s : String) : Bool :=
  [2, 3].any fun p =>
    decide (p ≤ s.data.length) && (s.data.take p).all isAZ09 &&
      digitsThenEnd (s.data.drop p)

/-- `looks_like_iata_flight(s)`. -/
def looks_like_iata_flight (s : Option String) : Bool :=
  match _clean_str s with
  | none => false
  | some t => iataFlightMatch t

/-- The capture of `re.match(r"^([A-Z0-9]{2,3})\d", s)`: the greedy quantifier
tries three leading characters first, then two. -/
def flightNoCode (s : String) : Option String :=
  let cs := s.data
  if decide (4 ≤ cs.length) && (cs.take 3).all isAZ09 && isDigitCh (cs.getD 3 ' ') then
    some ⟨cs.take 3⟩
  else if decide (3 ≤ cs.length) && (cs.take 2).all isAZ09 && isDigitCh (cs.getD 2 ' ') then
    some ⟨cs.take 2⟩
  else none

/-- `_airline_from_flight_no(flight_no, cats)`. -/
def _airline_from_flight_no (flight_no : Option String) (cats : Catalogs) :
    Option AirlineEntry :=
  if looks_like_iata_flight flight_no then
    match flight_no with
    | none => none
    | some s =>
      match flightNoCode (pyStrip s) with
      | some pref => cats.airlines_by_iata pref
      | none => none
  else none

/-! ## Enrichment (`enrich_with_catalogs`, plane_merge.py 175-292; the
airtracker_complete.py copy at 470-584 differs only in inferring the airline
from `callsign` instead of `flight_no`) -/

/-- The seat count the catalog provides: `a.get("seats")` when it is a
positive integer (`seat_actual` in the source). -/
def seat_actual_of (cats : Catalogs) (icao_type : String) : Option ℤ :=
  match cats.aircraft icao_type with
  | some a =>
    match a.seats with
    | some s => if 0 < s then some s else none
    | none => none
  | none => none

/-- The three `souls_on_board_max*` outputs of enrichment. -/
structure SoulsFields where
  souls_on_board_max : Option ℤ
  is_estimate : Bool
  text : String
deriving DecidableEq

/-- The `souls_on_board_max` / `_is_estimate` / `_text` assignment of
`enrich_with_catalogs`: catalog seats first, then the heuristic (computed
only when the catalog gave nothing), else an explicit "N/A". -/
def souls_fields (icao_type : Option String) (cats : Catalogs) : SoulsFields :=
  match icao_type with
  | none => ⟨none, false, "N/A"⟩
  | some t =>
    match seat_actual_of cats t with
    | some s => ⟨some s, false, toString s⟩
    | none =>
      match _estimate_seat_max (some t) with
      | some e => ⟨some e, true, toString e⟩
      | none => ⟨none, false, "N/A"⟩

/-- The `lookups["aircraft"]` object: catalog fields when found, else an
explicit `not_found` record displaying the raw code. -/
def aircraft_lookup (icao_type : String) (cats : Catalogs) : AircraftLookup :=
  match cats.aircraft icao_type with
  | some a =>
    { icao := icao_type
      name := (pyOrStr a.name (pyOrStr a.model (some icao_type))).getD icao_type
      manufacturer := a.manufacturer
      model := a.model
      seats_max := a.seats
      iata_aliases := a.iata
      lookup_status := "found" }
  | none =>
    { icao := icao_type
      name := icao_type
      manufacturer := none
      model := none
      seats_max := none
      iata_aliases := []
      lookup_status := "not_found" }

/-- `airport_info(iata_code)` inside `enrich_with_catalogs`. -/
def airport_info (cats : Catalogs) (iata_code : Option String) : Option AirportEntry :=
  match _clean_str iata_code with
  | none => none
  | some i => cats.airports i

/-- The country-name fallback: when the airport record has no (truthy)
`country_name`, fill it from the countries catalog by `country_code`. -/
def fill_country_name (cats : Catalogs) (ap : Option AirportEntry) : Option AirportEntry :=
  match ap with
  | none => none
  | some a =>
    if pyTruthyS a.country_name then some a
    else
      match a.country_code with
      | some cc =>
        if cc = "" then some a
        else
          match cats.countries cc with
          | some c => some { a with country_name := c.name }
          | none => some a
      | none => some a

/-- The whole `lookups` dict built by one enrichment pass. -/
def build_lookups (row : MRow) (cats : Catalogs) : Lookups :=
  let aLookup : Option AircraftLookup :=
    match _clean_str row.aircraft_type with
    | none => none
    | some t => some (aircraft_lookup t cats)
  let airline0 : Option AirlineEntry :=
    match _clean_str row.airline_icao with
    | some c => cats.airlines_by_icao c
    | none => none
  let airline : Option AirlineEntry :=
    match airline0 with
    | some a => some a
    | none => _airline_from_flight_no (_clean_str row.flight_no) cats
  { aircraft := aLookup
    airline := airline
    origin_airport := fill_country_name cats (airport_info cats row.origin_iata)
    destination_airport := fill_country_name cats (airport_info cats row.destination_iata) }

/-- `if lookups: out["lookups"] = lookups`: overwrite only when the fresh
`lookups` dict is nonempty, else keep whatever the row already had. -/
def merge_lookups (old : Option Lookups) (lk : Lookups) : Option Lookups :=
  if lk.isEmptyL then old else some lk

/-- `enrich_with_catalogs(row, cats)`: a copy of the row with the three
`souls_on_board_max*` fields always (re)assigned and `lookups` assigned when
nonempty; every other key is untouched. -/
def enrich_with_catalogs (row : MRow) (cats : Catalogs) : MRow :=
  { row with
    souls_on_board_max := (souls_fields (_clean_str row.aircraft_type) cats).souls_on_board_max
    souls_on_board_max_is_estimate := some (souls_fields (_clean_str row.aircraft_type) cats).is_estimate
    souls_on_board_max_text := some (souls_fields (_clean_str row.aircraft_type) cats).text
    lookups := merge_lookups row.lookups (build_lookups row cats) }

/-! ## Provider rows and the military-flag merge (plane_merge.py) -/

/-- A raw provider row: the freshness fields `provider_age` reads and the
`mil` flag (a non-boolean value is modelled as `none`, exactly as the
`isinstance(v, bool)` guard treats it). -/
structure PRow where
  last_contact : Option ℚ
  time_position : Option ℚ
  seen : Option ℚ
  timestamp : Option ℚ
  mil : Option Bool
deriving DecidableEq

/-- The row used when a dictionary lookup cannot miss. -/
def defaultPRow : PRow := ⟨none, none, none, none, none⟩

/-- `provider_age(now_ts, p, row)` from plane_merge.py: age in seconds from
the provider-specific freshness signal. -/
def provider_age (now_ts : ℚ) (p : String) (row : PRow) : Option ℚ :=
  if p = "opensky" then (pyOrQ row.last_contact row.time_position).map (fun t => now_ts - t)
  else if p = "adsb_lol" then row.seen
  else if p = "fr24" then row.timestamp.map (fun t => now_ts - t)
  else none

/-- The three-valued `is_military` merge of `merge_one_hex`
(plane_merge.py 540-546). -/
def merge_is_military (bp : List (String × PRow)) : Option Bool :=
  if (bp.map (fun pr => pr.2.mil)).any (fun v => v == some true) then some true
  else if (bp.map (fun pr => pr.2.mil)).any (fun v => v == some false) &&
          !((bp.map (fun pr => pr.2.mil)).any (fun v => v == some true)) then some false
  else none

/-! ## Association-list lookup (Python dict access) -/

/-- First-match association lookup, the model of `d.get(k)`. -/
def assv {β : Type} : List (String × β) → String → Option β
  | [], _ => none
  | e :: rest, k => if e.1 = k then some e.2 else assv rest k

/-! ## Military cache (`MilCache.check_hex`: plane_retreiver.py 336-364 and
airtracker_complete.py 690-720) -/

/-- One on-disk cache entry `{mil, ts}`. -/
structure CacheEntry where
  mil : Option Bool
  ts : ℚ
deriving DecidableEq

/-- `self.cache[key] = entry`: replace or append. -/
def cacheInsert : List (String × CacheEntry) → String → CacheEntry →
    List (String × CacheEntry)
  | [], k, e => [(k, e)]
  | x :: rest, k, e => if x.1 = k then (k, e) :: rest else x :: cacheInsert rest k e

/-- Outcome of the external hex-status request in plane_retreiver.py: a
parsed `mil` flag, or any exception (network error, HTTP error status via
`raise_for_status`, or unparseable body). -/
inductive FetchOutcome where
  | parsed (mil : Option Bool)
  | failure
deriving DecidableEq

/-- `MilCache.check_hex` from plane_retreiver.py: cached fresh value, else
fetch; every failure is recorded in the cache as `{mil: None, ts: now}`
before returning `None`. -/
def check_hex_retreiver (cache : List (String × CacheEntry)) (ttl now : ℚ)
    (hex_str : String) (fetch : FetchOutcome) :
    Option Bool × List (String × CacheEntry) :=
  if hex_str = "" ∨ pyStartsWith hex_str "~" = true then (none, cache)
  else
    let key := pyUpper hex_str
    let cached : Option (Option Bool) :=
      match assv cache key with
      | some ent => if now - ent.ts > ttl then none else some ent.mil
      | none => none
    match cached with
    | some v => (v, cache)
    | none =>
      match fetch with
      | .parsed m => (m, cacheInsert cache key ⟨m, now⟩)
      | .failure => (none, cacheInsert cache key ⟨none, now⟩)

/-- Outcome of the request in airtracker_complete.py's `MilCache.check_hex`:
HTTP 200 with a parsed `mil` field (`data.get('mil', False)`), a non-200
status, or an exception escaping `requests.get` / `response.json()`. -/
inductive FetchOutcomeA where
  | status200 (mil : Bool)
  | statusOther
  | exc
deriving DecidableEq

/-- `MilCache.check_hex` from airtracker_complete.py: a non-200 status is
cached as unknown, but an exception returns `None` without touching the
cache. -/
def check_hex_complete (cache : List (String × CacheEntry)) (ttl now : ℚ)
    (hex_code : String) (fetch : FetchOutcomeA) :
    Option Bool × List (String × CacheEntry) :=
  if hex_code = "" then (none, cache)
  else
    let hex_upper := pyUpper hex_code
    let cached : Option (Option Bool) :=
      match assv cache hex_upper with
      | some ent => if now - ent.ts < ttl then some ent.mil else none
      | none => none
    match cached with
    | some v => (v, cache)
    | none =>
      match fetch with
      | .status200 m => (some m, cacheInsert cache hex_upper ⟨some m, now⟩)
      | .statusOther => (none, cacheInsert cache hex_upper ⟨none, now⟩)
      | .exc => (none, cache)

/-! ## Bounding box (`nm_to_deg`: plane_retreiver.py 68-71 and
airtracker_complete.py 245-249).  `cos_lat` stands for the transcendental
`math.cos(math.radians(lat_deg))`. -/

/-- `nm_to_deg` from plane_retreiver.py: the cosine is floored at 0.1. -/
def nm_to_deg_retreiver (cos_lat radius_nm : ℚ) : ℚ × ℚ :=
  (radius_nm / 60, radius_nm / (60 * max (1/10) cos_lat))

/-- `nm_to_deg` from airtracker_complete.py: no floor on the cosine. -/
def nm_to_deg_complete (cos_lat radius_nm : ℚ) : ℚ × ℚ :=
  (radius_nm / 60, radius_nm / (60 * cos_lat))

/-! ## Freshness-weighted field selection (`pick_value_and_source`,
plane_merge.py 310-344, and the telemetry/field_sources part of
`merge_one_hex`, plane_merge.py 452-485) -/

/-- The row behind `candidates[p]` (the dictionary access cannot miss for
providers drawn from the candidate keys). -/
def lookupRow (candidates : List (String × PRow)) (p : String) : PRow :=
  match assv candidates p with
  | some r => r
  | none => defaultPRow

/-- The score of one provider: its age, with a missing age treated as
`float("inf")`. -/
def ageScore (now_ts : ℚ) (candidates : List (String × PRow)) (p : String) :
    WithTop ℚ :=
  match provider_age now_ts p (lookupRow candidates p) with
  | some a => (a : WithTop ℚ)
  | none => ⊤

/-- Python `x in l` on provider names. -/
def memb (l : List String) (x : String) : Bool := l.any (fun y => y == x)

/-- `v not in (None, "", [])`: the adapter produced a usable value.
`emptyish` says which values of the field type equal `""` or `[]`. -/
def hasValue {α : Type} (emptyish : α → Bool) (v : Option α) : Bool :=
  match v with
  | some x => !emptyish x
  | none => false

/-- `per[pr]` (cannot miss for providers drawn from the per-keys). -/
def perValue {α : Type} (per : List (String × Option α)) (p : String) : Option α :=
  match assv per p with
  | some v => v
  | none => none

/-- `pick_value_and_source(candidates, now_ts, priority, adapters)`: apply
the adapters, keep providers with usable values, score them by age (missing
age is infinite), keep the freshest, and return the first of them in
priority order together with its value; with the source's fallback loop when
no freshest provider is listed in the priority. -/
def pick_value_and_source {α : Type} (emptyish : α → Bool)
    (candidates : List (String × PRow)) (now_ts : ℚ) (priority : List String)
    (adapters : String → Option α) : Option α × Option String :=
  let per : List (String × Option α) :=
    candidates.map (fun c => (c.1, adapters c.1))
  let with_value : List String :=
    (per.filter (fun pv => hasValue emptyish pv.2)).map (fun pv => pv.1)
  if with_value.isEmpty then (none, none)
  else
    let scored : List (WithTop ℚ × String) :=
      with_value.map (fun p => (ageScore now_ts candidates p, p))
    let min_age : WithTop ℚ := (scored.map (fun s => s.1)).foldr min ⊤
    let freshest : List String :=
      (scored.filter (fun s => decide (s.1 = min_age))).map (fun s => s.2)
    match priority.find? (fun pr => memb freshest pr) with
    | some pr => (perValue per pr, some pr)
    | none =>
      match priority.find? (fun pr => memb with_value pr) with
      | some pr => (perValue per pr, some pr)
      | none => (none, none)

/-- The telemetry section of `merge_one_hex`: one `pick_value_and_source`
call per field, the picked values as the output fields, and the
`field_sources` mapping recording the winning provider for every field
whose value and source are both present. -/
def merge_telemetry {α : Type} (emptyish : α → Bool)
    (candidates : List (String × PRow)) (now_ts : ℚ) (priority : List String)
    (fields : List (String × (String → Option α))) :
    List (String × α) × List (String × String) :=
  let picks := fields.map (fun f =>
    (f.1, pick_value_and_source emptyish candidates now_ts priority f.2))
  (picks.filterMap (fun kvs => match kvs.2.1 with
     | some v => some (kvs.1, v)
     | none => none),
   picks.filterMap (fun kvs => match kvs.2.1, kvs.2.2 with
     | some _, some s => some (kvs.1, s)
     | _, _ => none))

/-- Specification-side: the providers contributing a non-null, non-empty
candidate for the field. -/
def valued_providers {α : Type} (emptyish : α → Bool)
    (candidates : List (String × PRow)) (adapters : String → Option α) :
    List String :=
  (candidates.map (fun c => c.1)).filter (fun p => hasValue emptyish (adapters p))

/-- Specification-side winner, as the claim words it: the first provider in
the configured priority order that has a usable candidate and whose age is
smallest among the providers with usable candidates. -/
def specWinner {α : Type} (emptyish : α → Bool) (candidates : List (String × PRow))
    (now_ts : ℚ) (priority : List String) (adapters : String → Option α) :
    Option String :=
  priority.find? (fun p =>
    memb (valued_providers emptyish candidates adapters) p &&
    decide (∀ q ∈ valued_providers emptyish candidates adapters,
      ageScore now_ts candidates p ≤ ageScore now_ts candidates q))

/-- Two candidate rows tying on age 4 s at `now_ts = 100`: adsb_lol reports
`seen = 4`, fr24 reports `timestamp = 96`. -/
def exC1rows : List (String × PRow) :=
  [("adsb_lol", ⟨none, none, some 4, none, none⟩),
   ("fr24", ⟨none, none, none, some 96, none⟩)]

/-- A field adapter with distinct values per provider. -/
def exC1adapter : String → Option ℚ :=
  fun p => if p = "adsb_lol" then some 3 else some 5

/-- One telemetry field wired to `exC1adapter`. -/
def exC1fields : List (String × (String → Option ℚ)) :=
  [("altitude_ft", exC1adapter)]

/-- The configured provider priority (`DEFAULT_PRIORITY`). -/
def exC1priority : List String := ["adsb_lol", "fr24", "opensky"]

/-- The field merge of `merge_aircraft_data` (airtracker_complete.py
1061-1065) folded over one observation's non-null `(key, value)` pairs:
a key is written only when absent from (or null in) the accumulated
record, so the first non-null value in iteration order is kept. -/
def mergeObs (rec : List (String × ℚ)) (obsFields : List (String × ℚ)) :
    List (String × ℚ) :=
  obsFields.foldl (fun acc kv =>
    match assv acc kv.1 with
    | some _ => acc
    | none => acc ++ [kv]) rec

/-- The whole field merge of one hex group in `merge_aircraft_data`
(airtracker_complete.py 1046-1065): observations in list order, each merged
first-non-null; no age comparison, and the record has no `field_sources`
component. -/
def merge_aircraft_fields (obss : List (List (String × ℚ))) :
    List (String × ℚ) :=
  obss.foldl mergeObs []

/-- The `is_military` handling of `merge_aircraft_data`
(airtracker_complete.py 1056, 1067-1069): the flag starts at `False` and is
set to `True` by any truthy observation value, so it is Boolean, never
null. -/
def merge_is_military_complete (mils : List (Option Bool)) : Bool :=
  mils.foldl (fun acc m =>
    acc || (match m with
      | some b => b
      | none => false)) false

/-- A stale fr24 observation (timestamp 50 at now 100, age 50) listed ahead
of a fresh adsb_lol observation (seen 4). -/
def cexC1rows : List (String × PRow) :=
  [("fr24", ⟨none, none, none, some 50, none⟩),
   ("adsb_lol", ⟨none, none, some 4, none, none⟩)]

/-- The candidate values of the two providers of `cexC1rows`. -/
def cexC1adapter : String → Option ℚ :=
  fun p => if p = "adsb_lol" then some 3 else some 5

/-- The fr24 observation's non-null fields, listed first. -/
def cexObsF : List (String × ℚ) := [("altitude_ft", 5)]

/-- The adsb_lol observation's non-null fields, listed second. -/
def cexObsA : List (String × ℚ) := [("altitude_ft", 3)]

/-- A one-provider group in which the observation reports no military
flag. -/
def cexMilNone : List (String × PRow) :=
  [("opensky", ⟨none, none, none, none, none⟩)]

/-! ## Country flag selection (`_country_flag_fields`,
airtracker_complete.py 619-663) -/

/-- The three flag output fields, with their empty-string defaults. -/
structure FlagOut where
  country_flag_url : String
  country_flag_code : String
  country_flag_source : String
deriving DecidableEq

/-- The flag URL built for a selected country code. -/
def country_flag_url_of (c : String) : String :=
  "https://zip.spacegeese.com/u/country_flag_" ++ c ++ ".png"

/-- `lookups.get("origin_airport", {}).get("country_code", "").upper()`: an
absent airport gives the empty string; a present entry always carries the
`country_code` key, and a null value there makes the Python expression raise
(modelled as `none`). -/
def airport_country (ap : Option AirportEntry) : Option String :=
  match ap with
  | none => some ""
  | some a =>
    match a.country_code with
    | some c => some (pyUpper c)
    | none => none

/-- `_country_flag_fields(aircraft_lookups)`: select destination when it is
non-US and either the origin is US or they differ; else origin; else
whichever is present; emit the fields only for a two-letter code. -/
def _country_flag_fields (lk : Lookups) : Option FlagOut :=
  match airport_country lk.origin_airport with
  | none => none
  | some origin_country =>
    match airport_country lk.destination_airport with
    | none => none
    | some dest_country =>
      let sel : String × String :=
        if origin_country ≠ "" ∧ dest_country ≠ "" then
          if dest_country ≠ "US" ∧ (origin_country = "US" ∨ dest_country ≠ origin_country) then
            (dest_country, "destination")
          else (origin_country, "origin")
        else if dest_country ≠ "" then (dest_country, "destination")
        else if origin_country ≠ "" then (origin_country, "origin")
        else ("", "")
      some (if sel.1 ≠ "" ∧ sel.1.length = 2 then
              ⟨country_flag_url_of sel.1, sel.1, sel.2⟩
            else ⟨"", "", ""⟩)

/-! ## Nearest / nearest-interesting selection
(airtracker_complete.py 1072-1102 and 1188-1222) -/

/-- A merged aircraft as the nearest-selection code sees it: position,
classification and the `distance_nm` field it reads or writes. -/
structure MPlane where
  hex : String
  latitude : Option ℚ
  longitude : Option ℚ
  classification : Option String
  distance_nm : Option ℚ
deriving DecidableEq

/-- The scan of airtracker_complete.py 1194-1207: track the nearest
Commercial and the nearest Military aircraft (record and running distance,
starting at infinity), updating on strictly smaller distances only. -/
def classScan : List MPlane → Option MPlane × WithTop ℚ → Option MPlane × WithTop ℚ →
    (Option MPlane × WithTop ℚ) × (Option MPlane × WithTop ℚ)
  | [], nc, nm => (nc, nm)
  | ac :: rest, nc, nm =>
    match ac.distance_nm with
    | some d =>
      if ac.classification = some "Commercial" ∧ (d : WithTop ℚ) < nc.2 then
        classScan rest (some ac, (d : WithTop ℚ)) nm
      else if ac.classification = some "Military" ∧ (d : WithTop ℚ) < nm.2 then
        classScan rest nc (some ac, (d : WithTop ℚ))
      else classScan rest nc nm
    | none => classScan rest nc nm

/-- The hierarchy of airtracker_complete.py 1209-1222: when both exist, the
military aircraft wins only when strictly closer; else the commercial one;
else whichever exists. -/
def nearest_interesting (planes : List MPlane) : Option MPlane :=
  let s := classScan planes (none, ⊤) (none, ⊤)
  match s.2.1, s.1.1 with
  | some m, some c => if s.2.2 < s.1.2 then some m else some c
  | some m, none => some m
  | none, some c => some c
  | none, none => none

/-- The distances of the planes of one classification (specification-side). -/
def classDists (c : String) (planes : List MPlane) : List ℚ :=
  planes.filterMap (fun a => if a.classification = some c then a.distance_nm else none)

/-- Minimum of a list of rationals in `WithTop ℚ` (specification-side). -/
def fminQ (l : List ℚ) : WithTop ℚ :=
  (l.map (fun q => (q : WithTop ℚ))).foldr min ⊤

/-- Invariant of one class tracker: whenever a record is held, it has the
tracked classification and the running distance is its distance; with no
record the running distance is still infinity. -/
def goodTracker (st : Option MPlane × WithTop ℚ) (c : String) : Prop :=
  (∀ p, st.1 = some p →
    p.classification = some c ∧
      ∃ q : ℚ, p.distance_nm = some q ∧ st.2 = (q : WithTop ℚ)) ∧
  (st.1 = none → st.2 = ⊤)

/-- Python banker's rounding of a rational to the nearest integer: ties go
to the even neighbour. -/
def roundHalfEven (x : ℚ) : ℤ :=
  if x - ⌊x⌋ < 1/2 then ⌊x⌋
  else if 1/2 < x - ⌊x⌋ then ⌊x⌋ + 1
  else if ⌊x⌋ % 2 = 0 then ⌊x⌋ else ⌊x⌋ + 1

/-- Python `round(x, 3)`: round to the nearest thousandth. -/
def round3 (x : ℚ) : ℚ := (roundHalfEven (x * 1000) : ℚ) / 1000

/-- The distance-and-nearest loop of `merge_aircraft_data`
(airtracker_complete.py 1076-1102): for each plane with a position compute
its distance (`distOf`, abstracting the haversine at the configured
center), store it rounded to three decimals, and keep a copy of the record
whenever the unrounded distance strictly undercuts the running minimum
(initially infinity). -/
def nearestScan (distOf : ℚ → ℚ → ℚ) :
    List MPlane → Option MPlane → WithTop ℚ →
    List MPlane × Option MPlane × WithTop ℚ
  | [], best, bestD => ([], best, bestD)
  | ac :: rest, best, bestD =>
    match ac.latitude, ac.longitude with
    | some la, some lo =>
      let d := distOf la lo
      let ac2 : MPlane := { ac with distance_nm := some (round3 d) }
      if (d : WithTop ℚ) < bestD then
        let r := nearestScan distOf rest (some ac2) (d : WithTop ℚ)
        (ac2 :: r.1, r.2)
      else
        let r := nearestScan distOf rest best bestD
        (ac2 :: r.1, r.2)
    | _, _ =>
      let r := nearestScan distOf rest best bestD
      (ac :: r.1, r.2)

/-- The planes list with distances filled in, paired with the nearest
aircraft of the Snapshot (if any plane had a position). -/
def merge_aircraft_distances (distOf : ℚ → ℚ → ℚ) (planes : List MPlane) :
    List MPlane × Option MPlane :=
  let r := nearestScan distOf planes none ⊤
  (r.1, r.2.1)

/-! ## Example rows used by the witnesses -/

/-- Example distance oracle: distance is just the latitude. -/
def exDist : ℚ → ℚ → ℚ := fun la _ => la

/-- An example plane at distance 2. -/
def exPlaneA : MPlane := ⟨"AAA111", some 2, some 0, none, none⟩

/-- An example plane at distance 1, the nearest. -/
def exPlaneB : MPlane := ⟨"BBB222", some 1, some 0, none, none⟩

/-- A military plane at exactly 5 NM (tie case). -/
def cexMil : MPlane := ⟨"AE01CE", some 1, some 1, some "Military", some 5⟩

/-- A commercial plane at exactly 5 NM (tie case). -/
def cexCom : MPlane := ⟨"A1B2C3", some 2, some 2, some "Commercial", some 5⟩

/-- A military plane at 4 NM. -/
def cexM4 : MPlane := ⟨"AE11CE", some 1, some 1, some "Military", some 4⟩

/-- A commercial plane at 5 NM. -/
def cexC5 : MPlane := ⟨"A9B8C7", some 2, some 2, some "Commercial", some 5⟩

/-- Example airports for the flag-selection scenarios. -/
def exApUS : AirportEntry :=
  ⟨some "PDX", some "Portland", none, none, some "US", some "United States",
    none, none, none⟩

/-- A Canadian example airport. -/
def exApCA : AirportEntry :=
  ⟨some "YVR", some "Vancouver", none, none, some "CA", some "Canada",
    none, none, none⟩

/-- A German example airport. -/
def exApDE : AirportEntry :=
  ⟨some "FRA", some "Frankfurt", none, none, some "DE", some "Germany",
    none, none, none⟩

/-- A military-flagged example row. -/
def exRowMil : MRow :=
  ⟨"AE01CE", some true, some "C17", none, none, none, none, none, none, none, none, []⟩

/-- A commercial example row: explicit 180 seats, not military. -/
def exRowCom : MRow :=
  ⟨"A1B2C3", some false, some "B738", none, none, none, none, some 180, none, none, none, []⟩

/-- An unclassifiable example row: no seat information at all. -/
def exRowUnk : MRow :=
  ⟨"C0FFEE", none, none, none, none, none, none, none, none, none, none, []⟩

/-- An example row whose type is in the example catalog with seats. -/
def exRowA320 : MRow :=
  ⟨"ABC123", none, some "A320", none, none, none, none, none, none, none, none, []⟩

/-- A tiny concrete catalog: an A320 with 186 seats, and a B738 whose
catalog row carries no seat count (so the heuristic must fire). -/
def exCats : Catalogs :=
  { aircraft := fun t =>
      if t = "A320" then
        some ⟨some "Airbus A320", some "Airbus", some "A320", some 186, ["320"]⟩
      else if t = "B738" then
        some ⟨some "Boeing 737-800", some "Boeing", some "737-800", none, ["738"]⟩
      else none
    airlines_by_icao := fun _ => none
    airlines_by_iata := fun _ => none
    airports := fun _ => none
    countries := fun _ => none }

/-- Example provider group: adsb_lol reports military false, fr24 reports
nothing usable. -/
def exBPF : List (String × PRow) :=
  [("adsb_lol", ⟨none, none, some 4, none, some false⟩),
   ("fr24", ⟨none, none, none, some 96, none⟩)]

/-- An expired military-cache state: one stale entry for ABC123. -/
def exCache8 : List (String × CacheEntry) :=
  [("ABC123", ⟨some false, 0⟩)]

/-! ## Theorems -/

/-- C5: `classify_aircraft` returns "Military" exactly when `is_military` is
true; otherwise, with seats taken from `souls_on_board_max` or the
type-prefix heuristic, it returns "Private" when seats are at most the
threshold (explicit argument, else `PRIVATE_DESIGNATION_SEATS`, default 8)
and "Commercial" when they exceed it, and `none` when no seat count is
known.  In particular `is_military = true` implies classification
"Military". -/
theorem classify_aircraft_spec (row : MRow) (pt : Option ℤ) (env : Option String) :
    (row.is_military = some true → classify_aircraft row pt env = some "Military") ∧
    (row.is_military ≠ some true →
      ∀ s, classify_seats row = some s →
        classify_aircraft row pt env =
          some (if s ≤ pt.getD (_private_threshold_default env) then "Private"
                else "Commercial")) ∧
    (row.is_military ≠ some true → classify_seats row = none →
      classify_aircraft row pt env = none) ∧
    _private_threshold_default none = 8 := by
  refine ⟨?_, ?_, ?_, rfl⟩
  · intro h
    simp [classify_aircraft, h]
  · intro h s hs
    rw [classify_aircraft, if_neg h]
    rw [classify_seats] at hs
    simp only [hs]
  · intro h hs
    rw [classify_aircraft, if_neg h]
    rw [classify_seats] at hs
    simp only [hs]

/-- C5 witness: concrete classifications at the default threshold 8: a
military-flagged row is "Military", an explicit 180-seat row is
"Commercial", and a row with no seat data is unclassified. -/
theorem classify_aircraft_spec_witness :
    classify_aircraft exRowMil none none = some "Military" ∧
    classify_aircraft exRowCom none none = some "Commercial" ∧
    classify_aircraft exRowUnk none none = none := by
  refine ⟨(classify_aircraft_spec exRowMil none none).1 rfl, ?_, ?_⟩
  · have h := (classify_aircraft_spec exRowCom none none).2.1 (by decide) 180 (by decide)
    simpa using h
  · exact (classify_aircraft_spec exRowUnk none none).2.2.1 (by decide) (by decide)

/-- Characterization of the prefix test on character lists. -/
theorem startsWithL_iff (l p : List Char) :
    startsWithL l p = true ↔ ∃ r, l = p ++ r := by
  induction p generalizing l with
  | nil => simp [startsWithL]
  | cons q ps ih =>
    cases l with
    | nil => simp [startsWithL]
    | cons c cs =>
      simp only [startsWithL, Bool.and_eq_true, beq_iff_eq, ih, List.cons_append,
        List.cons.injEq]
      constructor
      · rintro ⟨rfl, r, rfl⟩
        exact ⟨r, rfl, rfl⟩
      · rintro ⟨r, rfl, rfl⟩
        exact ⟨rfl, r, rfl⟩

/-- A prefix test fails as soon as the head characters differ. -/
theorem startsWithL_false_of_head_ne {c p : Char} (cs ps : List Char)
    (h : (c == p) = false) : startsWithL (c :: cs) (p :: ps) = false := by
  simp [startsWithL, h]

/-- Peel one branch of an if-chain of optional integers: if the branch value
is positive and the rest of the chain only yields positive values, so does
the whole chain. -/
theorem pos_of_ite_chain {c : Prop} [Decidable c] {v n : ℤ} {rest : Option ℤ}
    (hv : 0 < v) (hrest : rest = some n → 0 < n) :
    (if c then some v else rest) = some n → 0 < n := by
  intro h
  by_cases hc : c
  · rw [if_pos hc] at h
    injection h with h2
    omega
  · rw [if_neg hc] at h
    exact hrest h

/-- Every value in the seat heuristic table is positive. -/
theorem seat_heuristic_table_pos (t : String) (n : ℤ)
    (h : seat_heuristic_table t = some n) : 0 < n := by
  rw [seat_heuristic_table] at h
  revert h
  refine pos_of_ite_chain (by norm_num) ?_
  refine pos_of_ite_chain (by norm_num) ?_
  refine pos_of_ite_chain (by norm_num) ?_
  refine pos_of_ite_chain (by norm_num) ?_
  refine pos_of_ite_chain (by norm_num) ?_
  refine pos_of_ite_chain (by norm_num) ?_
  refine pos_of_ite_chain (by norm_num) ?_
  refine pos_of_ite_chain (by norm_num) ?_
  refine pos_of_ite_chain (by norm_num) ?_
  refine pos_of_ite_chain (by norm_num) ?_
  refine pos_of_ite_chain (by norm_num) ?_
  refine pos_of_ite_chain (by norm_num) ?_
  refine pos_of_ite_chain (by norm_num) ?_
  refine pos_of_ite_chain (by norm_num) ?_
  refine pos_of_ite_chain (by norm_num) ?_
  refine pos_of_ite_chain (by norm_num) ?_
  refine pos_of_ite_chain (by norm_num) ?_
  refine pos_of_ite_chain (by norm_num) ?_
  refine pos_of_ite_chain (by norm_num) ?_
  refine pos_of_ite_chain (by norm_num) ?_
  refine pos_of_ite_chain (by norm_num) ?_
  refine pos_of_ite_chain (by norm_num) ?_
  refine pos_of_ite_chain (by norm_num) ?_
  refine pos_of_ite_chain (by norm_num) ?_
  refine pos_of_ite_chain (by norm_num) ?_
  refine pos_of_ite_chain (by norm_num) ?_
  refine pos_of_ite_chain (by norm_num) ?_
  refine pos_of_ite_chain (by norm_num) ?_
  refine pos_of_ite_chain (by norm_num) ?_
  refine pos_of_ite_chain (by norm_num) ?_
  refine pos_of_ite_chain (by norm_num) ?_
  refine pos_of_ite_chain (by norm_num) ?_
  exact fun hh => Option.noConfusion hh

/-- Every value produced by the seat heuristic is positive. -/
theorem estimate_seat_max_pos (o : Option String) (n : ℤ)
    (h : _estimate_seat_max o = some n) : 0 < n := by
  cases o with
  | none => exact Option.noConfusion h
  | some i =>
    rw [_estimate_seat_max] at h
    by_cases h0 : i = ""
    · rw [if_pos h0] at h
      exact Option.noConfusion h
    · rw [if_neg h0] at h
      exact seat_heuristic_table_pos _ _ h

/-- Every catalog seat count accepted by the guard is positive. -/
theorem seat_actual_of_pos (cats : Catalogs) (t : String) (s : ℤ)
    (h : seat_actual_of cats t = some s) : 0 < s := by
  cases ha : cats.aircraft t with
  | none =>
    simp only [seat_actual_of, ha] at h
    exact Option.noConfusion h
  | some a =>
    cases hs : a.seats with
    | none =>
      simp only [seat_actual_of, ha, hs] at h
      exact Option.noConfusion h
    | some v =>
      simp only [seat_actual_of, ha, hs] at h
      split_ifs at h with hv
      all_goals first
        | exact Option.noConfusion h
        | (cases h; exact hv)

/-- Any type whose uppercasing starts with "B73" gets heuristic value 230. -/
theorem estimate_seat_max_B73 (t : String)
    (h : pyStartsWith (pyUpper t) "B73" = true) :
    _estimate_seat_max (some t) = some 230 := by
  obtain ⟨r, hr⟩ := (startsWithL_iff (pyUpper t).data "B73".data).mp h
  have hr' : (pyUpper t).data = 'B' :: '7' :: '3' :: r := hr
  have htne : ¬ t = "" := by
    intro h0
    rw [h0] at hr'
    have hnil : (pyUpper "").data = [] := rfl
    rw [hnil] at hr'
    exact List.noConfusion hr' 
  have hA31 : startsWithL ('B' :: '7' :: '3' :: r) "A31".data = false :=
    startsWithL_false_of_head_ne _ _ (by decide)
  have hA32 : startsWithL ('B' :: '7' :: '3' :: r) "A32".data = false :=
    startsWithL_false_of_head_ne _ _ (by decide)
  have h70 : ('0' == '0') = true := by decide
  have hB70 : startsWithL ('B' :: '7' :: '3' :: r) "B70".data = false := by
    show startsWithL ('B' :: '7' :: '3' :: r) ('B' :: '7' :: '0' :: ([] : List Char)) = false
    simp [startsWithL]
  have hB72 : startsWithL ('B' :: '7' :: '3' :: r) "B72".data = false := by
    show startsWithL ('B' :: '7' :: '3' :: r) ('B' :: '7' :: '2' :: ([] : List Char)) = false
    simp [startsWithL]
  rw [_estimate_seat_max]
  rw [if_neg htne]
  rw [seat_heuristic_table]
  simp only [pyStartsWith, hr', hA31, hA32, hB70, hB72, Bool.or_self, Bool.or_false,
    Bool.false_or]
  rw [if_neg (by simp)]
  rw [if_neg (by simp)]
  rw [if_neg (by simp)]
  rw [if_pos]
  simp [startsWithL]

/-- C6: after enrichment, `souls_on_board_max` is a positive integer or
null; it is the catalog seat count with `is_estimate = false` when the
catalog provides a positive integer; otherwise the type-prefix heuristic
value with `is_estimate = true` when the heuristic matches (any type
starting with "B73" yields 230); otherwise null with text "N/A". -/
theorem enrich_souls_on_board_spec (row : MRow) (cats : Catalogs) :
    (∀ n, (enrich_with_catalogs row cats).souls_on_board_max = some n → 0 < n) ∧
    (∀ t s, _clean_str row.aircraft_type = some t → seat_actual_of cats t = some s →
      (enrich_with_catalogs row cats).souls_on_board_max = some s ∧
      (enrich_with_catalogs row cats).souls_on_board_max_is_estimate = some false) ∧
    (∀ t e, _clean_str row.aircraft_type = some t → seat_actual_of cats t = none →
      _estimate_seat_max (some t) = some e →
      (enrich_with_catalogs row cats).souls_on_board_max = some e ∧
      (enrich_with_catalogs row cats).souls_on_board_max_is_estimate = some true) ∧
    (∀ t, pyStartsWith (pyUpper t) "B73" = true → _estimate_seat_max (some t) = some 230) ∧
    (∀ t, _clean_str row.aircraft_type = some t → seat_actual_of cats t = none →
      _estimate_seat_max (some t) = none →
      (enrich_with_catalogs row cats).souls_on_board_max = none ∧
      (enrich_with_catalogs row cats).souls_on_board_max_text = some "N/A") ∧
    (_clean_str row.aircraft_type = none →
      (enrich_with_catalogs row cats).souls_on_board_max = none ∧
      (enrich_with_catalogs row cats).souls_on_board_max_text = some "N/A") := by
  have hsm : (enrich_with_catalogs row cats).souls_on_board_max
      = (souls_fields (_clean_str row.aircraft_type) cats).souls_on_board_max := rfl
  have hse : (enrich_with_catalogs row cats).souls_on_board_max_is_estimate
      = some (souls_fields (_clean_str row.aircraft_type) cats).is_estimate := rfl
  have hst : (enrich_with_catalogs row cats).souls_on_board_max_text
      = some (souls_fields (_clean_str row.aircraft_type) cats).text := rfl
  refine ⟨?_, ?_, ?_, estimate_seat_max_B73, ?_, ?_⟩
  · intro n hn
    rw [hsm] at hn
    cases hct : _clean_str row.aircraft_type with
    | none => rw [hct] at hn; exact absurd hn (by simp [souls_fields])
    | some t =>
      rw [hct] at hn
      rw [souls_fields] at hn
      cases hsa : seat_actual_of cats t with
      | some s =>
        simp only [hsa, Option.some.injEq] at hn
        exact hn ▸ seat_actual_of_pos cats t s hsa
      | none =>
        simp only [hsa] at hn
        cases hest : _estimate_seat_max (some t) with
        | some e =>
          simp only [hest, Option.some.injEq] at hn
          exact hn ▸ estimate_seat_max_pos (some t) e hest
        | none => simp only [hest] at hn; exact absurd hn (by simp)
  · intro t s h1 h2
    rw [hsm, hse, h1, souls_fields, h2]
    exact ⟨rfl, rfl⟩
  · intro t e h1 h2 h3
    rw [hsm, hse, h1, souls_fields, h2, h3]
    exact ⟨rfl, rfl⟩
  · intro t h1 h2 h3
    rw [hsm, hst, h1, souls_fields, h2, h3]
    exact ⟨rfl, rfl⟩
  · intro h1
    rw [hsm, hst, h1, souls_fields]
    exact ⟨rfl, rfl⟩

/-- C6 witness: on the concrete catalog, the A320 gets its 186 catalog seats
(not an estimate), the seatless B738 row gets the heuristic 230 (an
estimate), and a row with no type gets null with text "N/A". -/
theorem enrich_souls_on_board_spec_witness :
    ((enrich_with_catalogs exRowA320 exCats).souls_on_board_max = some 186 ∧
      (enrich_with_catalogs exRowA320 exCats).souls_on_board_max_is_estimate = some false) ∧
    ((enrich_with_catalogs exRowCom exCats).souls_on_board_max = some 230 ∧
      (enrich_with_catalogs exRowCom exCats).souls_on_board_max_is_estimate = some true) ∧
    ((enrich_with_catalogs exRowUnk exCats).souls_on_board_max = none ∧
      (enrich_with_catalogs exRowUnk exCats).souls_on_board_max_text = some "N/A") := by
  refine ⟨?_, ?_, ?_⟩
  · exact (enrich_souls_on_board_spec exRowA320 exCats).2.1 "A320" 186 (by decide) (by decide)
  · exact (enrich_souls_on_board_spec exRowCom exCats).2.2.1 "B738" 230 (by decide)
      (by decide) (by decide)
  · exact (enrich_souls_on_board_spec exRowUnk exCats).2.2.2.2.2 (by decide)

/-- Re-merging the same fresh `lookups` value is a no-op. -/
theorem merge_lookups_idem (o : Option Lookups) (lk : Lookups) :
    merge_lookups (merge_lookups o lk) lk = merge_lookups o lk := by
  by_cases h : lk.isEmptyL <;> simp [merge_lookups, h]

/-- `build_lookups` reads none of the four fields enrichment writes. -/
theorem build_lookups_irrel (row : MRow) (cats : Catalogs) (a : Option ℤ)
    (b : Option Bool) (c : Option String) (d : Option Lookups) :
    build_lookups
      { row with
        souls_on_board_max := a
        souls_on_board_max_is_estimate := b
        souls_on_board_max_text := c
        lookups := d } cats
      = build_lookups row cats := rfl

/-- C10: enrichment is idempotent; applying `enrich_with_catalogs` twice
with the same catalogs gives exactly the record of a single application. -/
theorem enrich_with_catalogs_idem (row : MRow) (cats : Catalogs) :
    enrich_with_catalogs (enrich_with_catalogs row cats) cats
      = enrich_with_catalogs row cats := by
  simp only [enrich_with_catalogs]
  congr 1
  exact merge_lookups_idem row.lookups (build_lookups row cats)

/-- C10 witness: idempotence at the concrete example row and catalog. -/
theorem enrich_with_catalogs_idem_witness :
    enrich_with_catalogs (enrich_with_catalogs exRowA320 exCats) exCats
      = enrich_with_catalogs exRowA320 exCats :=
  enrich_with_catalogs_idem exRowA320 exCats

/-- A boolean that is not true is false. -/
theorem bool_eq_false_of_ne_true {b : Bool} (h : ¬b = true) : b = false := by
  cases b
  · rfl
  · exact absurd rfl h

/-- C4 (amended): in plane_merge.py's `merge_one_hex`, the merged
`is_military` is three-valued: true when any observation in the group
reports military true; false when at least one reports false and none
reports true; unknown (null) when no observation reports either. -/
theorem merge_is_military_three_valued (bp : List (String × PRow)) :
    (merge_is_military bp = some true ↔ ∃ pr ∈ bp, pr.2.mil = some true) ∧
    (merge_is_military bp = some false ↔
      ((∃ pr ∈ bp, pr.2.mil = some false) ∧ ¬∃ pr ∈ bp, pr.2.mil = some true)) ∧
    (merge_is_military bp = none ↔
      ((¬∃ pr ∈ bp, pr.2.mil = some true) ∧ ¬∃ pr ∈ bp, pr.2.mil = some false)) := by
  have hTrue : ((bp.map (fun pr => pr.2.mil)).any (fun v => v == some true)) = true
      ↔ ∃ pr ∈ bp, pr.2.mil = some true := by
    simp [List.any_eq_true]
  have hFalse : ((bp.map (fun pr => pr.2.mil)).any (fun v => v == some false)) = true
      ↔ ∃ pr ∈ bp, pr.2.mil = some false := by
    simp [List.any_eq_true]
  rw [merge_is_military]
  split_ifs with h1 h2
  · have hx := hTrue.mp h1
    refine ⟨?_, ?_, ?_⟩
    · simp [hx]
    · simp [hx]
    · simp [hx]
  · rw [Bool.and_eq_true] at h2
    have hanyT : ((bp.map (fun pr => pr.2.mil)).any (fun v => v == some true)) = false :=
      bool_eq_false_of_ne_true h1
    have hF : ∃ pr ∈ bp, pr.2.mil = some false := hFalse.mp h2.1
    have hT : ¬∃ pr ∈ bp, pr.2.mil = some true := by
      rw [← hTrue, hanyT]
      simp
    refine ⟨?_, ?_, ?_⟩
    · simp [hT]
    · simp [hF, hT]
    · simp [hF]
  · have hanyT : ((bp.map (fun pr => pr.2.mil)).any (fun v => v == some true)) = false :=
      bool_eq_false_of_ne_true h1
    have hanyF : ((bp.map (fun pr => pr.2.mil)).any (fun v => v == some false)) = false := by
      apply bool_eq_false_of_ne_true
      intro hf
      apply h2
      rw [hf, hanyT]
      rfl
    have hT : ¬∃ pr ∈ bp, pr.2.mil = some true := by
      rw [← hTrue, hanyT]
      simp
    have hFn : ¬∃ pr ∈ bp, pr.2.mil = some false := by
      rw [← hFalse, hanyF]
      simp
    refine ⟨?_, ?_, ?_⟩
    · simp [hT]
    · simp [hFn]
    · simp [hT, hFn]

/-- C4 witness: one provider reports military false, the other reports
nothing, so the merged flag is false (not unknown). -/
theorem merge_is_military_three_valued_witness :
    merge_is_military exBPF = some false :=
  (merge_is_military_three_valued exBPF).2.1.mpr (by decide)

/-- A fresh cache insertion is immediately visible under its key. -/
theorem assv_cacheInsert_self (m : List (String × CacheEntry)) (k : String)
    (e : CacheEntry) : assv (cacheInsert m k e) k = some e := by
  induction m with
  | nil => simp [cacheInsert, assv]
  | cons x rest ih =>
    by_cases h : x.1 = k
    · simp [cacheInsert, h, assv]
    · simp [cacheInsert, h, assv, ih]

/-- C8 counterexample: in airtracker_complete.py's `MilCache.check_hex`, a
network exception on a cache miss returns unknown but leaves the cache
unchanged — no entry is recorded for the uppercased hex. -/
theorem check_hex_complete_failure_not_cached :
    (check_hex_complete [] 21600 1000 "abc123" FetchOutcomeA.exc).1 = none ∧
    (check_hex_complete [] 21600 1000 "abc123" FetchOutcomeA.exc).2 = [] ∧
    assv (check_hex_complete [] 21600 1000 "abc123" FetchOutcomeA.exc).2
      (pyUpper "abc123") = none :=
  ⟨rfl, rfl, rfl⟩

/-- C8 (amended): in plane_retreiver.py's `MilCache.check_hex`, when the
entry for the uppercased hex is missing or expired and the external request
fails, the cache entry is updated to the unknown value with the current
timestamp before the lookup returns, and the lookup returns unknown. -/
theorem check_hex_retreiver_failure_caches (cache : List (String × CacheEntry))
    (ttl now : ℚ) (hex_str : String)
    (hguard : ¬(hex_str = "" ∨ pyStartsWith hex_str "~" = true))
    (hmiss : ∀ ent, assv cache (pyUpper hex_str) = some ent → now - ent.ts > ttl) :
    (check_hex_retreiver cache ttl now hex_str FetchOutcome.failure).1 = none ∧
    assv (check_hex_retreiver cache ttl now hex_str FetchOutcome.failure).2
      (pyUpper hex_str) = some ⟨none, now⟩ := by
  rw [check_hex_retreiver, if_neg hguard]
  cases hc : assv cache (pyUpper hex_str) with
  | none =>
    simp only [hc]
    exact ⟨trivial, assv_cacheInsert_self cache (pyUpper hex_str) ⟨none, now⟩⟩
  | some ent =>
    have hexp : now - ent.ts > ttl := hmiss ent hc
    simp only [hc, if_pos hexp]
    exact ⟨trivial, assv_cacheInsert_self cache (pyUpper hex_str) ⟨none, now⟩⟩

/-- C8 witness: with a stale entry for ABC123 and a failing request, the
lookup returns unknown and the entry is refreshed to unknown at `now`. -/
theorem check_hex_retreiver_failure_caches_witness :
    (check_hex_retreiver exCache8 21600 999999 "abc123" FetchOutcome.failure).1 = none ∧
    assv (check_hex_retreiver exCache8 21600 999999 "abc123" FetchOutcome.failure).2
      (pyUpper "abc123") = some ⟨none, 999999⟩ := by
  refine check_hex_retreiver_failure_caches exCache8 21600 999999 "abc123" (by decide) ?_
  intro ent h
  have hv : assv exCache8 (pyUpper "abc123") = some (⟨some false, 0⟩ : CacheEntry) := by
    decide
  rw [hv] at h
  injection h with h2
  rw [← h2]
  norm_num

/-- C9 counterexample: airtracker_complete.py's `nm_to_deg` applies no floor
to the cosine: at `cos(lat) = 1/100` and radius 6 NM the longitude
half-extent is 10 degrees, far above the claimed bound `r/6 = 1`; the
plane_retreiver.py version floors the cosine and yields 1. -/
theorem nm_to_deg_complete_unfloored :
    (nm_to_deg_complete (1/100) 6).2 = 10 ∧
    ¬((nm_to_deg_complete (1/100) 6).2 ≤ 6 / 6) ∧
    (nm_to_deg_retreiver (1/100) 6).2 = 1 := by
  have hm : max (1/10 : ℚ) (1/100) = 1/10 := max_eq_left (by norm_num)
  refine ⟨by norm_num [nm_to_deg_complete], by norm_num [nm_to_deg_complete], ?_⟩
  rw [nm_to_deg_retreiver]
  simp only [hm]
  norm_num

/-- C9 (amended): plane_retreiver.py's `nm_to_deg` computes the half-extents
`Δlat = r/60` and `Δlon = r/(60·cos(lat))` with the cosine floored at 0.1,
so for a nonnegative radius the longitude half-extent never exceeds `r/6`. -/
theorem nm_to_deg_retreiver_spec (cos_lat radius_nm : ℚ) (hr : 0 ≤ radius_nm) :
    (nm_to_deg_retreiver cos_lat radius_nm).1 = radius_nm / 60 ∧
    (nm_to_deg_retreiver cos_lat radius_nm).2
      = radius_nm / (60 * max (1/10) cos_lat) ∧
    (nm_to_deg_retreiver cos_lat radius_nm).2 ≤ radius_nm / 6 := by
  refine ⟨rfl, rfl, ?_⟩
  have hmax : (1/10 : ℚ) ≤ max (1/10) cos_lat := le_max_left _ _
  have h6 : (6:ℚ) ≤ 60 * max (1/10) cos_lat := by nlinarith
  have hpos : (0:ℚ) < 60 * max (1/10) cos_lat := by nlinarith
  show radius_nm / (60 * max (1/10) cos_lat) ≤ radius_nm / 6
  rw [div_le_div_iff₀ hpos (by norm_num : (0:ℚ) < 6)]
  exact mul_le_mul_of_nonneg_left h6 hr

/-- C9 witness: the floored bound at `cos(lat) = 1/100`, radius 6 NM. -/
theorem nm_to_deg_retreiver_spec_witness :
    (nm_to_deg_retreiver (1/100) 6).2 ≤ 6 / 6 :=
  (nm_to_deg_retreiver_spec (1/100) 6 (by norm_num)).2.2

/-- C7: with origin country code O and destination country code D available
from the airport lookups, the flag is the destination (source
"destination") when both are present and D ≠ "US" and (O = "US" or D ≠ O);
otherwise the origin (source "origin") when both are present; otherwise
whichever single one is present. -/
theorem country_flag_selection (oa da : AirportEntry) (o d : String)
    (hoa : oa.country_code = some o) (hda : da.country_code = some d)
    (hou : pyUpper o = o) (hdu : pyUpper d = d)
    (hol : o.length = 2) (hdl : d.length = 2) :
    ((d ≠ "US" ∧ (o = "US" ∨ d ≠ o)) →
      _country_flag_fields ⟨none, none, some oa, some da⟩
        = some ⟨country_flag_url_of d, d, "destination"⟩) ∧
    (¬(d ≠ "US" ∧ (o = "US" ∨ d ≠ o)) →
      _country_flag_fields ⟨none, none, some oa, some da⟩
        = some ⟨country_flag_url_of o, o, "origin"⟩) ∧
    (_country_flag_fields ⟨none, none, none, some da⟩
      = some ⟨country_flag_url_of d, d, "destination"⟩) ∧
    (_country_flag_fields ⟨none, none, some oa, none⟩
      = some ⟨country_flag_url_of o, o, "origin"⟩) := by
  have hone : o ≠ "" := by
    intro h
    rw [h] at hol
    exact absurd hol (by decide)
  have hdne : d ≠ "" := by
    intro h
    rw [h] at hdl
    exact absurd hdl (by decide)
  have hao : airport_country (some oa) = some o := by
    simp only [airport_country, hoa, hou]
  have had : airport_country (some da) = some d := by
    simp only [airport_country, hda, hdu]
  have han : airport_country none = some "" := rfl
  refine ⟨?_, ?_, ?_, ?_⟩
  · intro hcond
    simp only [_country_flag_fields, hao, had]
    rw [if_pos (show o ≠ "" ∧ d ≠ "" from ⟨hone, hdne⟩)]
    rw [if_pos (show d ≠ "US" ∧ (o = "US" ∨ d ≠ o) from hcond)]
    rw [if_pos (show (d, "destination").1 ≠ "" ∧ (d, "destination").1.length = 2 from
      ⟨hdne, hdl⟩)]
  · intro hcond
    simp only [_country_flag_fields, hao, had]
    rw [if_pos (show o ≠ "" ∧ d ≠ "" from ⟨hone, hdne⟩)]
    rw [if_neg hcond]
    rw [if_pos (show (o, "origin").1 ≠ "" ∧ (o, "origin").1.length = 2 from
      ⟨hone, hol⟩)]
  · simp only [_country_flag_fields, had, han]
    rw [if_neg (show ¬("" ≠ "" ∧ d ≠ "") from by simp)]
    rw [if_pos hdne]
    rw [if_pos (show (d, "destination").1 ≠ "" ∧ (d, "destination").1.length = 2 from
      ⟨hdne, hdl⟩)]
  · simp only [_country_flag_fields, hao, han]
    rw [if_neg (show ¬(o ≠ "" ∧ "" ≠ "") from by simp)]
    rw [if_neg (show ¬("" ≠ "") from by simp)]
    rw [if_pos hone]
    rw [if_pos (show (o, "origin").1 ≠ "" ∧ (o, "origin").1.length = 2 from
      ⟨hone, hol⟩)]

/-- C7 witness: the three spec scenarios.  Origin US, destination CA:
flag CA from the destination.  Origin DE, destination US: flag DE from the
origin.  Origin US, destination US: flag US from the origin. -/
theorem country_flag_selection_witness :
    _country_flag_fields ⟨none, none, some exApUS, some exApCA⟩
      = some ⟨country_flag_url_of "CA", "CA", "destination"⟩ ∧
    _country_flag_fields ⟨none, none, some exApDE, some exApUS⟩
      = some ⟨country_flag_url_of "DE", "DE", "origin"⟩ ∧
    _country_flag_fields ⟨none, none, some exApUS, some exApUS⟩
      = some ⟨country_flag_url_of "US", "US", "origin"⟩ := by
  refine ⟨?_, ?_, ?_⟩
  · exact (country_flag_selection exApUS exApCA "US" "CA" rfl rfl rfl rfl rfl rfl).1
      (by decide)
  · exact (country_flag_selection exApDE exApUS "DE" "US" rfl rfl rfl rfl rfl rfl).2.1
      (by decide)
  · exact (country_flag_selection exApUS exApUS "US" "US" rfl rfl rfl rfl rfl rfl).2.1
      (by decide)

/-- Adding a strictly-larger-than-`b` element `d` to a minimum taken with
`b` afterwards changes nothing: the running-minimum update order of the
class scan. -/
theorem min_insert_lt {α : Type} [LinearOrder α] {d b : α} (f : α) (h : d < b) :
    min f d = min (min d f) b := by
  rcases le_total f d with hfd | hdf
  · rw [min_eq_left hfd, min_eq_right hfd,
      min_eq_left (le_of_lt (lt_of_le_of_lt hfd h))]
  · rw [min_eq_right hdf, min_eq_left hdf, min_eq_left (le_of_lt h)]

/-- An element at least `b` is absorbed when the minimum is taken with `b`. -/
theorem min_insert_ge {α : Type} [LinearOrder α] {d b : α} (f : α) (h : b ≤ d) :
    min f b = min (min d f) b := by
  apply le_antisymm
  · refine le_min (le_min ?_ (min_le_left f b)) (min_le_right f b)
    exact le_trans (min_le_right f b) h
  · exact le_min (le_trans (min_le_left _ _) (min_le_right d f)) (min_le_right _ _)

/-- The class scan maintains both tracker invariants, and each final running
distance is the minimum of that class's distances and the incoming bound. -/
theorem classScan_spec (l : List MPlane) : ∀ nc nm,
    goodTracker nc "Commercial" → goodTracker nm "Military" →
    goodTracker (classScan l nc nm).1 "Commercial" ∧
    goodTracker (classScan l nc nm).2 "Military" ∧
    (classScan l nc nm).1.2 = min (fminQ (classDists "Commercial" l)) nc.2 ∧
    (classScan l nc nm).2.2 = min (fminQ (classDists "Military" l)) nm.2 := by
  induction l with
  | nil =>
    intro nc nm h1 h2
    refine ⟨h1, h2, ?_, ?_⟩
    · rw [show classScan [] nc nm = (nc, nm) from rfl]
      rw [show classDists "Commercial" [] = [] from rfl]
      rw [show fminQ [] = ⊤ from rfl]
      rw [min_eq_right le_top]
    · rw [show classScan [] nc nm = (nc, nm) from rfl]
      rw [show classDists "Military" [] = [] from rfl]
      rw [show fminQ [] = ⊤ from rfl]
      rw [min_eq_right le_top]
  | cons ac rest ih =>
    intro nc nm h1 h2
    cases hd : ac.distance_nm with
    | none =>
      have hcl : classDists "Commercial" (ac :: rest) = classDists "Commercial" rest := by
        simp [classDists, hd]
      have hml : classDists "Military" (ac :: rest) = classDists "Military" rest := by
        simp [classDists, hd]
      rw [hcl, hml]
      simp only [classScan, hd]
      exact ih nc nm h1 h2
    | some d =>
      simp only [classScan, hd]
      by_cases hC : ac.classification = some "Commercial" ∧ (d : WithTop ℚ) < nc.2
      · rw [if_pos hC]
        have hgc : goodTracker (some ac, (d : WithTop ℚ)) "Commercial" := by
          refine ⟨?_, ?_⟩
          · intro p hp
            have hp2 : ac = p := by
              have : (some ac : Option MPlane) = some p := hp
              injection this
            rw [← hp2]
            exact ⟨hC.1, d, hd, rfl⟩
          · intro hn
            exact Option.noConfusion hn
        obtain ⟨g1, g2, e1, e2⟩ := ih (some ac, (d : WithTop ℚ)) nm hgc h2
        have hcl : classDists "Commercial" (ac :: rest)
            = d :: classDists "Commercial" rest := by
          simp [classDists, hC.1, hd]
        have hml : classDists "Military" (ac :: rest) = classDists "Military" rest := by
          have hne : ac.classification ≠ some "Military" := by
            rw [hC.1]
            decide
          simp [classDists, hne]
        refine ⟨g1, g2, ?_, ?_⟩
        · rw [e1, hcl]
          exact min_insert_lt (fminQ (classDists "Commercial" rest)) hC.2
        · rw [e2, hml]
      · rw [if_neg hC]
        by_cases hM : ac.classification = some "Military" ∧ (d : WithTop ℚ) < nm.2
        · rw [if_pos hM]
          have hgm : goodTracker (some ac, (d : WithTop ℚ)) "Military" := by
            refine ⟨?_, ?_⟩
            · intro p hp
              have hp2 : ac = p := by
                have : (some ac : Option MPlane) = some p := hp
                injection this
              rw [← hp2]
              exact ⟨hM.1, d, hd, rfl⟩
            · intro hn
              exact Option.noConfusion hn
          obtain ⟨g1, g2, e1, e2⟩ := ih nc (some ac, (d : WithTop ℚ)) h1 hgm
          have hml : classDists "Military" (ac :: rest)
              = d :: classDists "Military" rest := by
            simp [classDists, hM.1, hd]
          have hcl : classDists "Commercial" (ac :: rest)
              = classDists "Commercial" rest := by
            have hne : ac.classification ≠ some "Commercial" := by
              rw [hM.1]
              decide
            simp [classDists, hne]
          refine ⟨g1, g2, ?_, ?_⟩
          · rw [e1, hcl]
          · rw [e2, hml]
            exact min_insert_lt (fminQ (classDists "Military" rest)) hM.2
        · rw [if_neg hM]
          obtain ⟨g1, g2, e1, e2⟩ := ih nc nm h1 h2
          refine ⟨g1, g2, ?_, ?_⟩
          · by_cases hcc : ac.classification = some "Commercial"
            · have hge : nc.2 ≤ (d : WithTop ℚ) := by
                by_contra hlt
                exact hC ⟨hcc, not_le.mp hlt⟩
              have hcl : classDists "Commercial" (ac :: rest)
                  = d :: classDists "Commercial" rest := by
                simp [classDists, hcc, hd]
              rw [e1, hcl]
              exact min_insert_ge (fminQ (classDists "Commercial" rest)) hge
            · have hcl : classDists "Commercial" (ac :: rest)
                  = classDists "Commercial" rest := by
                simp [classDists, hcc]
              rw [e1, hcl]
          · by_cases hmm : ac.classification = some "Military"
            · have hge : nm.2 ≤ (d : WithTop ℚ) := by
                by_contra hlt
                exact hM ⟨hmm, not_le.mp hlt⟩
              have hml : classDists "Military" (ac :: rest)
                  = d :: classDists "Military" rest := by
                simp [classDists, hmm, hd]
              rw [e2, hml]
              exact min_insert_ge (fminQ (classDists "Military" rest)) hge
            · have hml : classDists "Military" (ac :: rest)
                  = classDists "Military" rest := by
                simp [classDists, hmm]
              rw [e2, hml]

/-- A nonempty distance list has a finite minimum. -/
theorem fminQ_lt_top (l : List ℚ) (h : l ≠ []) : fminQ l < ⊤ := by
  cases l with
  | nil => exact absurd rfl h
  | cons q rest =>
    calc fminQ (q :: rest) ≤ (q : WithTop ℚ) := min_le_left _ _
    _ < ⊤ := WithTop.coe_lt_top q

/-- C3 counterexample: with a Military and a Commercial aircraft at exactly
the same distance, airtracker_complete.py publishes the commercial one, not
the military one as the claim (and spec §4.G) states. -/
theorem nearest_interesting_tie_prefers_commercial :
    nearest_interesting [cexMil, cexCom] = some cexCom ∧
    cexMil.classification = some "Military" ∧
    cexCom.classification = some "Commercial" ∧
    cexMil.distance_nm = cexCom.distance_nm ∧
    nearest_interesting [cexMil, cexCom] ≠ some cexMil := by
  refine ⟨?_, rfl, rfl, rfl, ?_⟩
  · rfl
  · intro h
    rw [show nearest_interesting [cexMil, cexCom] = some cexCom from rfl] at h
    injection h with h2
    exact absurd (congrArg MPlane.hex h2) (by decide)

/-- C3 (amended): when both a Military- and a Commercial-classified
aircraft with distances exist, the published nearest-interesting record is
the one of the two class minima with the smaller `distance_nm`; the
military aircraft is chosen only when strictly closer, and on an exact tie
the commercial aircraft is chosen. -/
theorem nearest_interesting_spec (planes : List MPlane)
    (hm : classDists "Military" planes ≠ [])
    (hc : classDists "Commercial" planes ≠ []) :
    ∃ p, nearest_interesting planes = some p ∧
      ((fminQ (classDists "Military" planes) < fminQ (classDists "Commercial" planes) →
          p.classification = some "Military" ∧
          ∃ q : ℚ, p.distance_nm = some q ∧
            (q : WithTop ℚ) = fminQ (classDists "Military" planes)) ∧
       (fminQ (classDists "Commercial" planes) ≤ fminQ (classDists "Military" planes) →
          p.classification = some "Commercial" ∧
          ∃ q : ℚ, p.distance_nm = some q ∧
            (q : WithTop ℚ) = fminQ (classDists "Commercial" planes))) := by
  have hg0 : goodTracker (none, ⊤) "Commercial" :=
    ⟨fun p hp => Option.noConfusion hp, fun _ => rfl⟩
  have hg0m : goodTracker (none, ⊤) "Military" :=
    ⟨fun p hp => Option.noConfusion hp, fun _ => rfl⟩
  obtain ⟨g1, g2, e1, e2⟩ := classScan_spec planes (none, ⊤) (none, ⊤) hg0 hg0m
  have e1' : (classScan planes (none, ⊤) (none, ⊤)).1.2
      = fminQ (classDists "Commercial" planes) := by
    rw [e1]
    exact min_eq_left le_top
  have e2' : (classScan planes (none, ⊤) (none, ⊤)).2.2
      = fminQ (classDists "Military" planes) := by
    rw [e2]
    exact min_eq_left le_top
  have hs1 : ∃ c, (classScan planes (none, ⊤) (none, ⊤)).1.1 = some c := by
    cases hx : (classScan planes (none, ⊤) (none, ⊤)).1.1 with
    | none =>
      have := g1.2 hx
      rw [e1'] at this
      exact absurd this (ne_of_lt (fminQ_lt_top _ hc))
    | some c => exact ⟨c, rfl⟩
  have hs2 : ∃ m, (classScan planes (none, ⊤) (none, ⊤)).2.1 = some m := by
    cases hx : (classScan planes (none, ⊤) (none, ⊤)).2.1 with
    | none =>
      have := g2.2 hx
      rw [e2'] at this
      exact absurd this (ne_of_lt (fminQ_lt_top _ hm))
    | some m => exact ⟨m, rfl⟩
  obtain ⟨c, hc1⟩ := hs1
  obtain ⟨m, hm1⟩ := hs2
  obtain ⟨hccls, qc, hcd, hcq⟩ := g1.1 c hc1
  obtain ⟨hmcls, qm, hmd, hmq⟩ := g2.1 m hm1
  by_cases hcmp : fminQ (classDists "Military" planes) < fminQ (classDists "Commercial" planes)
  · refine ⟨m, ?_, ?_, ?_⟩
    · rw [nearest_interesting]
      simp only [hm1, hc1]
      rw [if_pos (show (classScan planes (none, ⊤) (none, ⊤)).2.2
          < (classScan planes (none, ⊤) (none, ⊤)).1.2 from by rw [e1', e2']; exact hcmp)]
    · intro _
      refine ⟨hmcls, qm, hmd, ?_⟩
      rw [← e2', hmq]
    · intro hle
      exact absurd hcmp (not_lt.mpr hle)
  · refine ⟨c, ?_, ?_, ?_⟩
    · rw [nearest_interesting]
      simp only [hm1, hc1]
      rw [if_neg (show ¬((classScan planes (none, ⊤) (none, ⊤)).2.2
          < (classScan planes (none, ⊤) (none, ⊤)).1.2) from by rw [e1', e2']; exact hcmp)]
    · intro hlt
      exact absurd hlt hcmp
    · intro _
      refine ⟨hccls, qc, hcd, ?_⟩
      rw [← e1', hcq]

/-- C3 witness: military at 4 NM, commercial at 5 NM: the military aircraft
is selected (it is strictly closer). -/
theorem nearest_interesting_spec_witness :
    ((nearest_interesting [cexM4, cexC5]).map (fun p => p.classification))
      = some (some "Military") := by
  obtain ⟨p, hp, h1, h2⟩ :=
    nearest_interesting_spec [cexM4, cexC5] (by decide) (by decide)
  have hcls := (h1 (by decide)).1
  rw [hp]
  simp [hcls]

/-- Banker's rounding never exceeds the floor plus one. -/
theorem roundHalfEven_le_floor_add_one (x : ℚ) : roundHalfEven x ≤ ⌊x⌋ + 1 := by
  rw [roundHalfEven]
  split_ifs <;> omega

/-- Banker's rounding is at least the floor. -/
theorem floor_le_roundHalfEven (x : ℚ) : ⌊x⌋ ≤ roundHalfEven x := by
  rw [roundHalfEven]
  split_ifs <;> omega

/-- Banker's rounding is monotone. -/
theorem roundHalfEven_mono {x y : ℚ} (h : x ≤ y) :
    roundHalfEven x ≤ roundHalfEven y := by
  have hf : ⌊x⌋ ≤ ⌊y⌋ := Int.floor_le_floor h
  rcases lt_or_eq_of_le hf with hlt | heq
  · have h1 := roundHalfEven_le_floor_add_one x
    have h2 := floor_le_roundHalfEven y
    omega
  · rw [roundHalfEven, roundHalfEven, ← heq]
    have hr : x - (⌊x⌋ : ℚ) ≤ y - (⌊x⌋ : ℚ) := by linarith
    split_ifs <;> first | omega | (exfalso; linarith)

/-- Rounding to three decimals is monotone. -/
theorem round3_mono {x y : ℚ} (h : x ≤ y) : round3 x ≤ round3 y := by
  rw [round3, round3]
  have h1 : x * 1000 ≤ y * 1000 := by linarith
  have h2 := roundHalfEven_mono h1
  have h3 : ((roundHalfEven (x * 1000) : ℚ)) ≤ (roundHalfEven (y * 1000) : ℚ) := by
    exact_mod_cast h2
  linarith

/-- Invariant of the nearest scan: the final running minimum only
decreases, the held record (if any) carries exactly the rounded running
minimum as its distance, and every positioned processed plane has its
rounded distance stored and its unrounded distance at least the final
running minimum. -/
theorem nearestScan_spec (distOf : ℚ → ℚ → ℚ) (l : List MPlane) : ∀ best bestD,
    (∀ b, best = some b →
      ∃ dq : ℚ, bestD = (dq : WithTop ℚ) ∧ b.distance_nm = some (round3 dq)) →
    ((nearestScan distOf l best bestD).2.2 ≤ bestD) ∧
    (∀ b, (nearestScan distOf l best bestD).2.1 = some b →
      ∃ dq : ℚ, (nearestScan distOf l best bestD).2.2 = (dq : WithTop ℚ) ∧
        b.distance_nm = some (round3 dq)) ∧
    (∀ m ∈ (nearestScan distOf l best bestD).1, ∀ la lo, m.latitude = some la →
      m.longitude = some lo →
      m.distance_nm = some (round3 (distOf la lo)) ∧
      (nearestScan distOf l best bestD).2.2 ≤ (distOf la lo : WithTop ℚ)) := by
  induction l with
  | nil =>
    intro best bestD hlink
    refine ⟨le_refl _, ?_, ?_⟩
    · intro b hb
      obtain ⟨dq, h1, h2⟩ := hlink b hb
      exact ⟨dq, h1, h2⟩
    · intro m hm
      exact absurd hm (List.not_mem_nil m)
  | cons ac rest ih =>
    intro best bestD hlink
    obtain ⟨ahex, ala, alo, acls, adist⟩ := ac
    cases ala with
    | none =>
      simp only [nearestScan]
      obtain ⟨i1, i2, i3⟩ := ih best bestD hlink
      refine ⟨i1, i2, ?_⟩
      intro m hm la lo hmla hmlo
      rcases List.mem_cons.mp hm with hm | hm
      · rw [hm] at hmla
        exact absurd hmla (by simp)
      · exact i3 m hm la lo hmla hmlo
    | some la0 =>
      cases alo with
      | none =>
        simp only [nearestScan]
        obtain ⟨i1, i2, i3⟩ := ih best bestD hlink
        refine ⟨i1, i2, ?_⟩
        intro m hm la lo hmla hmlo
        rcases List.mem_cons.mp hm with hm | hm
        · rw [hm] at hmlo
          exact absurd hmlo (by simp)
        · exact i3 m hm la lo hmla hmlo
      | some lo0 =>
        simp only [nearestScan]
        by_cases hlt : ((distOf la0 lo0 : ℚ) : WithTop ℚ) < bestD
        · rw [if_pos hlt]
          have hlink2 : ∀ b,
              (some (⟨ahex, some la0, some lo0, acls,
                  some (round3 (distOf la0 lo0))⟩ : MPlane)) = some b →
              ∃ dq : ℚ, ((distOf la0 lo0 : ℚ) : WithTop ℚ) = (dq : WithTop ℚ) ∧
                b.distance_nm = some (round3 dq) := by
            intro b hb
            have hb2 : (⟨ahex, some la0, some lo0, acls,
                some (round3 (distOf la0 lo0))⟩ : MPlane) = b := by
              injection hb
            exact ⟨distOf la0 lo0, rfl, by rw [← hb2]⟩
          obtain ⟨i1, i2, i3⟩ := ih
            (some ⟨ahex, some la0, some lo0, acls, some (round3 (distOf la0 lo0))⟩)
            ((distOf la0 lo0 : ℚ) : WithTop ℚ) hlink2
          refine ⟨le_trans i1 (le_of_lt hlt), i2, ?_⟩
          intro m hm la lo hmla hmlo
          rcases List.mem_cons.mp hm with hm | hm
          · have hmla2 : la0 = la := by
              rw [hm] at hmla
              injection hmla
            have hmlo2 : lo0 = lo := by
              rw [hm] at hmlo
              injection hmlo
            rw [← hmla2, ← hmlo2, hm]
            exact ⟨rfl, i1⟩
          · exact i3 m hm la lo hmla hmlo
        · rw [if_neg hlt]
          obtain ⟨i1, i2, i3⟩ := ih best bestD hlink
          refine ⟨i1, i2, ?_⟩
          intro m hm la lo hmla hmlo
          rcases List.mem_cons.mp hm with hm | hm
          · have hmla2 : la0 = la := by
              rw [hm] at hmla
              injection hmla
            have hmlo2 : lo0 = lo := by
              rw [hm] at hmlo
              injection hmlo
            rw [← hmla2, ← hmlo2, hm]
            exact ⟨rfl, le_trans i1 (not_lt.mp hlt)⟩
          · exact i3 m hm la lo hmla hmlo

/-- C2: in a built Snapshot with a nearest aircraft present, no plane with a
position has a stored `distance_nm` strictly smaller than the nearest
aircraft's `distance_nm`: the nearest is the argmin of distance over the
positioned planes. -/
theorem snapshot_nearest_is_argmin (distOf : ℚ → ℚ → ℚ) (planes : List MPlane)
    (n : MPlane) (hn : (merge_aircraft_distances distOf planes).2 = some n) :
    ∀ m ∈ (merge_aircraft_distances distOf planes).1, ∀ la lo dm dn,
      m.latitude = some la → m.longitude = some lo →
      m.distance_nm = some dm → n.distance_nm = some dn → dn ≤ dm := by
  obtain ⟨h1, h2, h3⟩ :=
    nearestScan_spec distOf planes none ⊤ (fun b hb => Option.noConfusion hb)
  intro m hm la lo dm dn hmla hmlo hdm hdn
  obtain ⟨dq, hdq, hbd⟩ := h2 n hn
  obtain ⟨hdist, hle⟩ := h3 m hm la lo hmla hmlo
  have hdn2 : dn = round3 dq := by
    have hx : some dn = some (round3 dq) := by rw [← hdn, hbd]
    exact Option.some.inj hx
  have hdm2 : dm = round3 (distOf la lo) := by
    have hx : some dm = some (round3 (distOf la lo)) := by rw [← hdm, hdist]
    exact Option.some.inj hx
  have hqs : dq ≤ distOf la lo := by
    rw [hdq] at hle
    exact_mod_cast hle
  rw [hdn2, hdm2]
  exact round3_mono hqs

/-- C2 witness: with two positioned planes at distances 2 and 1, the
nearest record is the distance-1 plane, and the theorem instantiates to
`1 ≤ 2` at the other plane. -/
theorem snapshot_nearest_is_argmin_witness : (1 : ℚ) ≤ 2 := by
  have hr2 : round3 2 = 2 := by norm_num [round3, roundHalfEven]
  have hr1 : round3 1 = 1 := by norm_num [round3, roundHalfEven]
  have hlt1 : ((2 : ℚ) : WithTop ℚ) < ⊤ := WithTop.coe_lt_top 2
  have hlt2 : ((1 : ℚ) : WithTop ℚ) < ((2 : ℚ) : WithTop ℚ) := by
    rw [WithTop.coe_lt_coe]
    norm_num
  have hd2 : exDist 2 0 = 2 := rfl
  have hd1 : exDist 1 0 = 1 := rfl
  have hscan : nearestScan exDist [exPlaneA, exPlaneB] none ⊤
      = ([⟨"AAA111", some 2, some 0, none, some 2⟩,
          ⟨"BBB222", some 1, some 0, none, some 1⟩],
         some ⟨"BBB222", some 1, some 0, none, some 1⟩, ((1 : ℚ) : WithTop ℚ)) := by
    rw [show exPlaneA = (⟨"AAA111", some 2, some 0, none, none⟩ : MPlane) from rfl,
      show exPlaneB = (⟨"BBB222", some 1, some 0, none, none⟩ : MPlane) from rfl]
    simp [nearestScan, hd1, hd2, hr1, hr2, hlt1, hlt2]
  have hn : (merge_aircraft_distances exDist [exPlaneA, exPlaneB]).2
      = some ⟨"BBB222", some 1, some 0, none, some 1⟩ := by
    show (nearestScan exDist [exPlaneA, exPlaneB] none ⊤).2.1 = _
    rw [hscan]
  have hm : (⟨"AAA111", some 2, some 0, none, some 2⟩ : MPlane)
      ∈ (merge_aircraft_distances exDist [exPlaneA, exPlaneB]).1 := by
    show _ ∈ (nearestScan exDist [exPlaneA, exPlaneB] none ⊤).1
    rw [hscan]
    exact List.mem_cons_self _ _
  exact snapshot_nearest_is_argmin exDist [exPlaneA, exPlaneB]
    ⟨"BBB222", some 1, some 0, none, some 1⟩ hn
    ⟨"AAA111", some 2, some 0, none, some 2⟩ hm 2 0 2 1 rfl rfl rfl rfl

/-! ## C1: freshness-weighted field selection -/

/-- Membership test `memb` agrees with list membership. -/
theorem memb_iff (l : List String) (x : String) : memb l x = true ↔ x ∈ l := by
  simp [memb]

/-- Characterisation of `hasValue`. -/
theorem hasValue_true {α : Type} (e : α → Bool) (v : Option α) :
    hasValue e v = true ↔ ∃ x, v = some x ∧ e x = false := by
  cases v with
  | none => simp [hasValue]
  | some x => simp [hasValue]

/-- The `with_value` list computed inside `pick_value_and_source` is exactly
the specification-side `valued_providers`. -/
theorem with_value_eq {α : Type} (e : α → Bool) (l : List (String × PRow))
    (ad : String → Option α) :
    ((l.map (fun c => (c.1, ad c.1))).filter (fun pv => hasValue e pv.2)).map
        (fun pv => pv.1)
      = valued_providers e l ad := by
  simp only [valued_providers]
  induction l with
  | nil => rfl
  | cons c rest ih =>
    simp only [List.map_cons, List.filter_cons]
    cases hc : hasValue e (ad c.1) <;> simp [hc, ih]

/-- A right fold by `min` starting from `⊤` bounds every list element. -/
theorem foldr_min_le (l : List (WithTop ℚ)) (x : WithTop ℚ) (hx : x ∈ l) :
    l.foldr min ⊤ ≤ x := by
  induction l with
  | nil => cases hx
  | cons a rest ih =>
    rw [List.foldr_cons]
    rcases List.mem_cons.mp hx with h | h
    · rw [h]
      exact min_le_left _ _
    · exact le_trans (min_le_right _ _) (ih h)

/-- A lower bound of all elements bounds the fold by `min` from `⊤`. -/
theorem le_foldr_min (l : List (WithTop ℚ)) (b : WithTop ℚ)
    (h : ∀ x ∈ l, b ≤ x) : b ≤ l.foldr min ⊤ := by
  induction l with
  | nil => exact le_top
  | cons a rest ih =>
    rw [List.foldr_cons]
    exact le_min (h a (List.mem_cons_self a rest))
      (ih (fun x hx => h x (List.mem_cons_of_mem a hx)))

/-- Pointwise equal predicates give equal first matches. -/
theorem findq_congr {p q : String → Bool} (h : ∀ a, p a = q a) :
    ∀ l : List String, l.find? p = l.find? q := by
  intro l
  induction l with
  | nil => rfl
  | cons a rest ih =>
    by_cases hp : p a = true
    · rw [List.find?_cons_of_pos _ hp,
        List.find?_cons_of_pos _ (by rw [← h a]; exact hp)]
    · have hq : ¬ q a = true := by rw [← h a]; exact hp
      rw [List.find?_cons_of_neg _ hp, List.find?_cons_of_neg _ hq, ih]

/-- Looking a key up in an adapter-image association list applies the
adapter. -/
theorem assv_map_value {α : Type} (l : List (String × PRow))
    (g : String → Option α) (w : String) (hw : w ∈ l.map (fun c => c.1)) :
    assv (l.map (fun c => (c.1, g c.1))) w = some (g w) := by
  induction l with
  | nil => cases hw
  | cons c rest ih =>
    rw [List.map_cons] at hw
    simp only [List.map_cons, assv]
    by_cases hc : c.1 = w
    · rw [if_pos (show (c.1, g c.1).1 = w from hc), hc]
    · rw [if_neg (show ¬ (c.1, g c.1).1 = w from hc)]
      rcases List.mem_cons.mp hw with h | h
      · exact absurd h.symm hc
      · exact ih h

/-- Bool extensionality via the propositional coercion. -/
theorem bool_key (a b : Bool) (h : a = true ↔ b = true) : a = b := by
  cases a <;> cases b <;> simp_all

/-- Membership in the `freshest` list of `pick_value_and_source`: the
provider has a usable value and its age score is minimal among providers
with usable values. -/
theorem freshest_memb (V : List String) (A : String → WithTop ℚ) (pr : String) :
    memb (((V.map (fun p => (A p, p))).filter
        (fun s => decide (s.1 = ((V.map (fun p => (A p, p))).map
          (fun s => s.1)).foldr min ⊤))).map (fun s => s.2)) pr
    = (memb V pr && decide (∀ q ∈ V, A pr ≤ A q)) := by
  have hms : ∀ q ∈ V, A q ∈ (V.map (fun p => (A p, p))).map (fun s => s.1) := by
    intro q hq
    exact List.mem_map_of_mem _ (List.mem_map_of_mem _ hq)
  apply bool_key
  simp only [memb_iff, Bool.and_eq_true, decide_eq_true_eq, List.mem_map,
    List.mem_filter]
  constructor
  · rintro ⟨s, ⟨⟨p, hpV, hps⟩, hmin⟩, hspr⟩
    subst hps
    have hppr : p = pr := hspr
    subst hppr
    refine ⟨hpV, ?_⟩
    intro q hq
    exact le_of_eq_of_le hmin (foldr_min_le _ _ (hms q hq))
  · rintro ⟨hprV, hmin⟩
    have hle : A pr ≤ ((V.map (fun p => (A p, p))).map (fun s => s.1)).foldr min ⊤ := by
      apply le_foldr_min
      intro x hx
      obtain ⟨s, hs, hsx⟩ := List.mem_map.mp hx
      obtain ⟨q, hqV, hqs⟩ := List.mem_map.mp hs
      subst hqs
      rw [← hsx]
      exact hmin q hqV
    have hge : ((V.map (fun p => (A p, p))).map (fun s => s.1)).foldr min ⊤ ≤ A pr :=
      foldr_min_le _ _ (hms pr hprV)
    exact ⟨(A pr, pr), ⟨⟨pr, hprV, rfl⟩, le_antisymm hle hge⟩, rfl⟩

/-- When the specification-side winner exists, `pick_value_and_source`
returns exactly that provider's adapted value together with its name. -/
theorem pick_value_and_source_eq {α : Type} (e : α → Bool)
    (candidates : List (String × PRow)) (now_ts : ℚ) (priority : List String)
    (adapters : String → Option α) (w : String)
    (hw : specWinner e candidates now_ts priority adapters = some w) :
    pick_value_and_source e candidates now_ts priority adapters
      = (adapters w, some w) := by
  have hw' := hw
  simp only [specWinner] at hw'
  have hwp := List.find?_some hw'
  simp only [Bool.and_eq_true, memb_iff] at hwp
  have hwV : w ∈ valued_providers e candidates adapters := hwp.1
  have hwkeys : w ∈ candidates.map (fun c => c.1) := by
    have h2 : w ∈ (candidates.map (fun c => c.1)).filter
        (fun p => hasValue e (adapters p)) := by
      simpa [valued_providers] using hwV
    exact (List.mem_filter.mp h2).1
  have hne : ¬ (valued_providers e candidates adapters).isEmpty = true := by
    cases hVl : valued_providers e candidates adapters with
    | nil =>
      rw [hVl] at hwV
      exact absurd hwV (List.not_mem_nil w)
    | cons a l => simp
  simp only [pick_value_and_source]
  rw [with_value_eq e candidates adapters]
  rw [if_neg hne]
  rw [findq_congr (fun a => freshest_memb (valued_providers e candidates adapters)
    (ageScore now_ts candidates) a) priority]
  rw [hw']
  show (perValue (candidates.map (fun c => (c.1, adapters c.1))) w, some w)
    = (adapters w, some w)
  have hav : assv (candidates.map (fun c => (c.1, adapters c.1))) w
      = some (adapters w) := assv_map_value candidates adapters w hwkeys
  simp only [perValue, hav]

/-- A field whose pick succeeded appears in the merged output and in
`field_sources` under its own key, provided field keys are distinct. -/
theorem merge_telemetry_lookup {α : Type} (e : α → Bool)
    (candidates : List (String × PRow)) (now_ts : ℚ) (priority : List String)
    (field : String) (adapter : String → Option α) (v : α) (w : String)
    (hpick : pick_value_and_source e candidates now_ts priority adapter
      = (some v, some w)) :
    ∀ fields : List (String × (String → Option α)),
      (field, adapter) ∈ fields →
      (fields.map (fun f => f.1)).Nodup →
      assv (merge_telemetry e candidates now_ts priority fields).1 field
        = some v ∧
      assv (merge_telemetry e candidates now_ts priority fields).2 field
        = some w := by
  intro fields
  induction fields with
  | nil =>
    intro hmem _
    cases hmem
  | cons f rest ih =>
    intro hmem hnd
    rcases List.mem_cons.mp hmem with hf | hf
    · obtain ⟨hk, ha⟩ : f.1 = field ∧ f.2 = adapter := by
        rw [← hf]
        exact ⟨rfl, rfl⟩
      simp only [merge_telemetry, List.map_cons, List.filterMap_cons, hk, ha,
        hpick]
      exact ⟨by simp [assv], by simp [assv]⟩
    · have hne : ¬ f.1 = field := by
        intro he
        have h2 : f.1 ∉ rest.map (fun x => x.1) := (List.nodup_cons.mp hnd).1
        rw [he] at h2
        exact h2 (List.mem_map_of_mem _ hf)
      obtain ⟨ih1, ih2⟩ := ih hf (List.nodup_cons.mp hnd).2
      simp only [merge_telemetry] at ih1 ih2
      simp only [merge_telemetry, List.map_cons, List.filterMap_cons]
      constructor
      · cases hp : (pick_value_and_source e candidates now_ts priority f.2).1 with
        | none =>
          simp only [hp]
          exact ih1
        | some vv =>
          simp only [hp, assv]
          rw [if_neg (show ¬ (f.1, vv).1 = field from hne)]
          exact ih1
      · cases hp1 : (pick_value_and_source e candidates now_ts priority f.2).1 with
        | none =>
          simp only [hp1]
          exact ih2
        | some vv =>
          cases hp2 : (pick_value_and_source e candidates now_ts priority f.2).2 with
          | none =>
            simp only [hp1, hp2]
            exact ih2
          | some s =>
            simp only [hp1, hp2, assv]
            rw [if_neg (show ¬ (f.1, s).1 = field from hne)]
            exact ih2

/-- C1 (amended): in plane_merge.py's merge, for every group of same-hex
candidate observations and every telemetry field of the merged record, the
merged value is the non-null, non-empty candidate of the provider that
`specWinner` designates — the first provider in the configured priority
order whose age is smallest among the providers holding usable candidates
(ties on the smallest age therefore go to priority order) — and that
provider is recorded under the field's key in `field_sources`. -/
theorem merge_telemetry_freshest_priority {α : Type} (e : α → Bool)
    (candidates : List (String × PRow)) (now_ts : ℚ) (priority : List String)
    (fields : List (String × (String → Option α)))
    (field : String) (adapter : String → Option α) (w : String)
    (hmem : (field, adapter) ∈ fields)
    (hnd : (fields.map (fun f => f.1)).Nodup)
    (hw : specWinner e candidates now_ts priority adapter = some w) :
    assv (merge_telemetry e candidates now_ts priority fields).1 field
      = adapter w ∧
    assv (merge_telemetry e candidates now_ts priority fields).2 field
      = some w := by
  have hpick := pick_value_and_source_eq e candidates now_ts priority adapter w hw
  simp only [specWinner] at hw
  have hwp := List.find?_some hw
  simp only [Bool.and_eq_true, memb_iff] at hwp
  have hval : hasValue e (adapter w) = true := by
    have h2 : w ∈ (candidates.map (fun c => c.1)).filter
        (fun p => hasValue e (adapter p)) := by
      simpa [valued_providers] using hwp.1
    exact (List.mem_filter.mp h2).2
  obtain ⟨v, hv, -⟩ := (hasValue_true e (adapter w)).mp hval
  rw [hv] at hpick
  obtain ⟨h1, h2⟩ := merge_telemetry_lookup e candidates now_ts priority field
    adapter v w hpick fields hmem hnd
  exact ⟨by rw [h1, hv], h2⟩

/-- C1 witness: adsb_lol (seen 4 s) and fr24 (timestamp 96 at now 100) tie
on age 4; the altitude field takes adsb_lol's value and `field_sources`
records adsb_lol, first in the priority order. -/
theorem merge_telemetry_freshest_priority_witness :
    assv (merge_telemetry (fun _ => false) exC1rows 100 exC1priority exC1fields).1
        "altitude_ft" = exC1adapter "adsb_lol" ∧
    assv (merge_telemetry (fun _ => false) exC1rows 100 exC1priority exC1fields).2
        "altitude_ft" = some "adsb_lol" := by
  have hV : valued_providers (fun _ => false) exC1rows exC1adapter
      = ["adsb_lol", "fr24"] := rfl
  have ha1 : ageScore 100 exC1rows "adsb_lol" = ((4 : ℚ) : WithTop ℚ) := rfl
  have ha2 : ageScore 100 exC1rows "fr24" = ((100 - 96 : ℚ) : WithTop ℚ) := rfl
  have ha3 : ageScore 100 exC1rows "fr24" = ((4 : ℚ) : WithTop ℚ) := by
    rw [ha2]
    norm_num
  have hall : ∀ q ∈ valued_providers (fun _ => false) exC1rows exC1adapter,
      ageScore 100 exC1rows "adsb_lol" ≤ ageScore 100 exC1rows q := by
    rw [hV]
    intro q hq
    rcases List.mem_cons.mp hq with h | h
    · subst h
      exact le_refl _
    · rcases List.mem_cons.mp h with h2 | h2
      · subst h2
        rw [ha1, ha3]
      · exact absurd h2 (List.not_mem_nil q)
  have hpred : (memb (valued_providers (fun _ => false) exC1rows exC1adapter)
      "adsb_lol" &&
      decide (∀ q ∈ valued_providers (fun _ => false) exC1rows exC1adapter,
        ageScore 100 exC1rows "adsb_lol" ≤ ageScore 100 exC1rows q)) = true := by
    rw [Bool.and_eq_true]
    refine ⟨?_, decide_eq_true hall⟩
    rw [memb_iff, hV]
    exact List.mem_cons_self _ _
  have hw : specWinner (fun _ => false) exC1rows 100 exC1priority exC1adapter
      = some "adsb_lol" := by
    simp only [specWinner, exC1priority]
    exact List.find?_cons_of_pos _ hpred
  exact merge_telemetry_freshest_priority (fun _ => false) exC1rows 100
    exC1priority exC1fields "altitude_ft" exC1adapter "adsb_lol"
    (by simp [exC1fields]) (by decide) hw

/-- C1 counterexample: airtracker_complete.py's `merge_aircraft_data` keeps,
for every field, the first non-null value in observation iteration order.
With a stale fr24 observation (age 50 s) listed ahead of a fresh adsb_lol
observation (age 4 s), the merged altitude is the stale value 5, while the
smallest-age candidate — the one `pick_value_and_source` selects on the
same data — is adsb_lol's value 3; and the merged record carries no
`field_sources`. -/
theorem merge_complete_ignores_freshness :
    assv (merge_aircraft_fields [cexObsF, cexObsA]) "altitude_ft" = some 5 ∧
    ageScore 100 cexC1rows "adsb_lol" < ageScore 100 cexC1rows "fr24" ∧
    pick_value_and_source (fun _ => false) cexC1rows 100 exC1priority
      cexC1adapter = (some 3, some "adsb_lol") ∧
    (5 : ℚ) ≠ 3 := by
  have ha1 : ageScore 100 cexC1rows "adsb_lol" = ((4 : ℚ) : WithTop ℚ) := rfl
  have ha2 : ageScore 100 cexC1rows "fr24" = ((100 - 50 : ℚ) : WithTop ℚ) := rfl
  have ha3 : ageScore 100 cexC1rows "fr24" = ((50 : ℚ) : WithTop ℚ) := by
    rw [ha2]
    norm_num
  have hV : valued_providers (fun _ => false) cexC1rows cexC1adapter
      = ["fr24", "adsb_lol"] := rfl
  have hall : ∀ q ∈ valued_providers (fun _ => false) cexC1rows cexC1adapter,
      ageScore 100 cexC1rows "adsb_lol" ≤ ageScore 100 cexC1rows q := by
    rw [hV]
    intro q hq
    rcases List.mem_cons.mp hq with h | h
    · subst h
      rw [ha1, ha3]
      exact WithTop.coe_le_coe.mpr (by norm_num)
    · rcases List.mem_cons.mp h with h2 | h2
      · subst h2
        exact le_refl _
      · exact absurd h2 (List.not_mem_nil q)
  have hpred : (memb (valued_providers (fun _ => false) cexC1rows cexC1adapter)
      "adsb_lol" &&
      decide (∀ q ∈ valued_providers (fun _ => false) cexC1rows cexC1adapter,
        ageScore 100 cexC1rows "adsb_lol" ≤ ageScore 100 cexC1rows q)) = true := by
    rw [Bool.and_eq_true]
    refine ⟨?_, decide_eq_true hall⟩
    rw [memb_iff, hV]
    exact List.mem_cons_of_mem _ (List.mem_cons_self _ _)
  have hw : specWinner (fun _ => false) cexC1rows 100 exC1priority cexC1adapter
      = some "adsb_lol" := by
    simp only [specWinner, exC1priority]
    exact List.find?_cons_of_pos _ hpred
  refine ⟨rfl, ?_, ?_, by norm_num⟩
  · rw [ha1, ha3]
    exact WithTop.coe_lt_coe.mpr (by norm_num)
  · rw [pick_value_and_source_eq (fun _ => false) cexC1rows 100 exC1priority
      cexC1adapter "adsb_lol" hw]
    rfl

/-- C4 counterexample: airtracker_complete.py's merged `is_military` flag is
Boolean, never null: a group in which no observation reports a military flag
merges to `False`, indistinguishable from a group reporting false, whereas
the three-valued merge of plane_merge.py yields unknown on the no-report
group. -/
theorem merge_is_military_complete_two_valued :
    merge_is_military_complete [none] = merge_is_military_complete [some false] ∧
    merge_is_military_complete [none] = false ∧
    merge_is_military cexMilNone = none ∧
    merge_is_military cexMilNone ≠ some (merge_is_military_complete [none]) := by
  decide
